import Mathlib

/-!
Verification development for the DMR-ML-Pro repository.

The definitions below are a shallow embedding of the core engine:
the dual-momentum signal rule and the two-threshold hysteresis gate
(src/models.py), the purged walk-forward trainer `MLRiskModel.fit_predict`
(src/models.py), the position simulator `BacktestEngine.run_backtest` and
the grid-search optimizer `BacktestEngine.optimize_parameters`
(src/backtest_engine.py).

Floating-point numbers are modelled by rationals; pandas timestamps by
integer day numbers; the externally supplied random-forest classifier by an
abstract prediction oracle (it is only ever called through `fit` /
`predict_proba`, and no claim depends on its numeric output).  Metrics that
are irrational in the source (annualized return, Sharpe, Sortino, which
need real powers and square roots) are not part of any claim and are left
out of the embedded `BacktestResult`.
-/

set_option maxRecDepth 100000

namespace DMRML

/-! ### Constants from src/config.py -/

/-- `TradingConfig.commission_rate = 0.0003`. -/
def commission_rate : ℚ := 3 / 10000

/-- `TradingConfig.risk_free_rate = 0.03`. -/
def risk_free_rate : ℚ := 3 / 100

/-- `TradingConfig.daily_rf = risk_free_rate / 252`. -/
def daily_rf : ℚ := risk_free_rate / 252

/-- `TradingConfig.max_drawdown_limit = -0.20`. -/
def max_drawdown_limit : ℚ := -(1 / 5)

/-- `MLConfig.risk_trigger_threshold = 0.40`. -/
def risk_trigger_threshold : ℚ := 2 / 5

/-- `MLConfig.risk_release_threshold = 0.33`. -/
def risk_release_threshold : ℚ := 33 / 100

/-! ### Positions -/

/-- The three position values `"300"`, `"1000"`, `"CASH"` used throughout
src/models.py and src/backtest_engine.py. -/
inductive Pos where
  | p300
  | p1000
  | cash
deriving DecidableEq

/-! ### Hysteresis gate (src/models.py `MLRiskModel.get_risk_signal`,
lines 364-401, and the inline gate of `BacktestEngine.run_backtest`,
lines 167-178) -/

/-- Python `x or default` on an optional float argument: `None` and `0.0`
are falsy and fall back to the default.  Used by `get_risk_signal` to
resolve `trigger_threshold` / `release_threshold` against the config. -/
def pyOrQ (x : Option ℚ) (dflt : ℚ) : ℚ :=
  match x with
  | none => dflt
  | some v => if v = 0 then dflt else v

/-- `MLRiskModel.get_risk_signal(current_prob, is_risk_off,
trigger_threshold, release_threshold)` (src/models.py lines 364-401).
The interpolated percentages of the reason strings are elided. -/
def get_risk_signal (current_prob : ℚ) (is_risk_off : Bool)
    (trigger_threshold release_threshold : Option ℚ) : Bool × String :=
  let trigger := pyOrQ trigger_threshold risk_trigger_threshold
  let release := pyOrQ release_threshold risk_release_threshold
  if is_risk_off = false ∧ current_prob > trigger then
    (true, "风险概率超过触发阈值，进入避险")
  else if is_risk_off = true ∧ current_prob < release then
    (false, "风险概率低于解除阈值，解除避险")
  else if is_risk_off = true then
    (true, "维持避险状态")
  else
    (false, "正常交易")

/-- The inline ML gate update of `BacktestEngine.run_backtest`
(src/backtest_engine.py lines 171-175): state update and the
`exit_reason` it produces (interpolated percentage elided). -/
def runBacktestGate (ml_trigger ml_release p_risk : ℚ) (risk_off : Bool) :
    Bool × String :=
  if risk_off = false ∧ p_risk > ml_trigger then (true, "ML风险触发")
  else if risk_off = true ∧ p_risk < ml_release then (false, "")
  else (risk_off, "")

/-! ### Signal rule (src/models.py `DMRStrategy.generate_signal`,
lines 99-147, and the inline target selection of
`BacktestEngine.run_backtest`, lines 158-165) -/

/-- `DMRStrategy.generate_signal` (src/models.py lines 99-147). -/
def generate_signal (price_300 price_1000 momentum_300 momentum_1000
    ma_300 ma_1000 : ℚ) : Pos × String :=
  let sig_300 := price_300 > ma_300 ∧ momentum_300 > 0
  let sig_1000 := price_1000 > ma_1000 ∧ momentum_1000 > 0
  if sig_300 ∧ sig_1000 then
    if momentum_300 > momentum_1000 then
      (Pos.p300, "两指数均多头，大盘更强")
    else
      (Pos.p1000, "两指数均多头，小盘更强")
  else if sig_300 then (Pos.p300, "大盘多头，小盘走弱")
  else if sig_1000 then (Pos.p1000, "小盘多头，大盘走弱")
  else (Pos.cash, "无有效信号")

/-- The inline target selection of `BacktestEngine.run_backtest`
(src/backtest_engine.py lines 158-165), from the two per-asset
absolute-momentum booleans and the two momentum values. -/
def backtestTarget (sig300 sig1000 : Bool) (m300 m1000 : ℚ) : Pos :=
  if sig300 = true ∧ sig1000 = true then
    if m300 > m1000 then Pos.p300 else Pos.p1000
  else if sig300 = true then Pos.p300
  else if sig1000 = true then Pos.p1000
  else Pos.cash

/-! ### Walk-forward trainer (src/models.py `MLRiskModel.fit_predict`,
lines 264-362)

The feature/label frame produced by `FeatureEngineer` (external to the
engine per the spec) is abstracted row-wise: a row records whether it
survives `dropna()` and its `label` value.  The random-forest classifier
is abstracted by an oracle `proba : ℕ → ℕ → ℚ` giving, for the retrain at
index `t`, the predicted class-1 probability of row `j` — the embedding
never needs its numeric values for the claims below. -/

/-- One row of `fe.get_result()`: `valid` is true when the row has no
missing value (so it survives `train_df.dropna()`), `label` is the binary
risk label column. -/
structure MLRow where
  valid : Bool
  label : ℤ
deriving DecidableEq

def defaultMLRow : MLRow := ⟨false, 0⟩

/-- Normalization of one bound of a Python `iloc[a:b]` slice over `n`
rows: negative bounds count from the end, and both are clamped to
`[0, n]`. -/
def sliceNorm (n : ℕ) (a : ℤ) : ℕ :=
  if a < 0 then ((n : ℤ) + a).toNat else min a.toNat n

/-- The row positions selected by `data.iloc[a:b]` (Python slice
semantics with unit step). -/
def ilocIdx (n : ℕ) (a b : ℤ) : List ℕ :=
  List.range' (sliceNorm n a) (sliceNorm n b - sliceNorm n a)

/-- The retrain anchors of the walk-forward loop:
`range(train_window + horizon, len(data) - horizon, step)`
(src/models.py line 317). -/
def retrainIndices (n train_window horizon step : ℕ) : List ℕ :=
  (List.range (((n - horizon) - (train_window + horizon) + step - 1) / step)).map
    (fun k => train_window + horizon + k * step)

/-- Row positions of the training slice
`data.iloc[t - train_window : t - horizon].dropna()`
(src/models.py line 321): the purged slice, restricted to valid rows. -/
def trainIdxOf (data : List MLRow) (train_window horizon t : ℕ) : List ℕ :=
  (ilocIdx data.length ((t : ℤ) - train_window) ((t : ℤ) - horizon)).filter
    (fun j => (data.getD j defaultMLRow).valid)

/-- The skip test of src/models.py line 324:
`len(train_df) < 100 or len(np.unique(train_df['label'])) < 2`. -/
def skipCond (data : List MLRow) (train_window horizon t : ℕ) : Bool :=
  decide ((trainIdxOf data train_window horizon t).length < 100)
    || decide ((((trainIdxOf data train_window horizon t).map
        (fun j => (data.getD j defaultMLRow).label)).dedup).length < 2)

/-- Positional assignment `risk_probs.iloc[t : t + step] = vals`
(src/models.py line 339): entries at positions in `[t, t + step)` (clamped
to the series length) are replaced by the predicted probabilities. -/
def writeBlock (probs : List ℚ) (t step : ℕ) (f : ℕ → ℚ) : List ℚ :=
  (List.range probs.length).map
    (fun j => if t ≤ j ∧ j < t + step then f j else probs.getD j 0)

/-- The walk-forward loop of `fit_predict` (src/models.py lines 308-342):
starting from `pd.Series(0.0, index=data.index)`, each non-skipped retrain
writes its prediction block; the boolean records whether any retrain ever
fitted a model (i.e. whether the local variable `model` was ever
assigned). -/
def fit_predict_scan (proba : ℕ → ℕ → ℚ) (data : List MLRow)
    (train_window horizon step : ℕ) : List ℚ × Bool :=
  (retrainIndices data.length train_window horizon step).foldl
    (fun acc t =>
      if skipCond data train_window horizon t then acc
      else (writeBlock acc.1 t step (proba t), true))
    (List.replicate data.length 0, false)

/-- The raw (pre-smoothing) probability series of `fit_predict`. -/
def fit_predict_raw (proba : ℕ → ℕ → ℚ) (data : List MLRow)
    (train_window horizon step : ℕ) : List ℚ :=
  (fit_predict_scan proba data train_window horizon step).1

/-- Exponential weighted mean, pandas `ewm(span).mean()` with the default
`adjust=True`: `y_i = num_i / den_i` with `num_i = x_i + decay * num_(i-1)`
and `den_i = 1 + decay * den_(i-1)`, where `decay = 1 - 2/(span+1)`. -/
def ewmAux (decay : ℚ) : List ℚ → ℚ → ℚ → List ℚ
  | [], _, _ => []
  | x :: xs, num, den =>
    (x + decay * num) / (1 + decay * den)
      :: ewmAux decay xs (x + decay * num) (1 + decay * den)

/-- `series.ewm(span=span).mean()` (src/models.py line 345 uses
`span = 5`, hence `decay = 2/3`). -/
def ewmMean (span : ℕ) (xs : List ℚ) : List ℚ :=
  ewmAux (1 - 2 / ((span : ℚ) + 1)) xs 0 0

/-- `MLRiskModel.fit_predict` (src/models.py lines 264-362): runs the
walk-forward loop, smooths the raw series with `ewm(span=5).mean()`, and
then executes `self.model = model` (line 353) — which raises
`UnboundLocalError` whenever no retrain iteration ever assigned the local
variable `model`.  The raise is modelled by `Except.error`. -/
def fit_predict (proba : ℕ → ℕ → ℚ) (data : List MLRow)
    (train_window horizon step : ℕ) : Except String (List ℚ) :=
  let scan := fit_predict_scan proba data train_window horizon step
  if scan.2 then Except.ok (ewmMean 5 scan.1)
  else Except.error
    "UnboundLocalError: local variable model referenced before assignment"

/-! ### Statement apparatus and concrete data for the `fit_predict`
claims -/

/-- The running weighted numerator of pandas `ewm(adjust=True)`:
`num_i = x_i + decay * num_(i-1)` folded from `init`. -/
def ewmNumF (decay init : ℚ) (xs : List ℚ) : ℚ :=
  xs.foldl (fun a x => x + decay * a) init

/-- The running weight total of pandas `ewm(adjust=True)`:
`den_i = 1 + decay * den_(i-1)` folded from `init`. -/
def ewmDenF (decay init : ℚ) (xs : List ℚ) : ℚ :=
  xs.foldl (fun a _ => 1 + decay * a) init

/-- Extracts the returned series of a `fit_predict` call, the empty list
standing for a raised exception. -/
def exceptListOr (e : Except String (List ℚ)) : List ℚ :=
  match e with
  | Except.ok l => l
  | Except.error _ => []

/-- Concrete data for the C1 witness: 20 valid rows. -/
def purgeWitnessData : List MLRow := List.replicate 20 ⟨true, 0⟩

/-- Concrete 122-row frame for C8: rows 0-101 are valid with alternating
labels, rows 102-110 have missing features (dropped by `dropna`), rows
111-121 are valid.  With `train_window = 101`, `horizon = 1`,
`step = 10`, the retrain at `t = 102` fits (100 valid training rows, two
label classes) and fills block `[102, 112)`, while the retrain at
`t = 112` is skipped (only 91 valid training rows). -/
def c8Data : List MLRow :=
  (List.range 122).map (fun j =>
    if j ≤ 101 then ⟨true, ((j % 2 : ℕ) : ℤ)⟩
    else if j ≤ 110 then ⟨false, 0⟩
    else ⟨true, 0⟩)

/-- Constant classifier oracle for C8: every prediction is `9/10`. -/
def c8Proba : ℕ → ℕ → ℚ := fun _ _ => 9 / 10

/-! ### Simulator (src/backtest_engine.py `BacktestEngine.run_backtest`,
lines 78-223)

One aligned day of the two price frames carries a date (an integer day
number standing for the pandas timestamp of `common_idx`), and for each
asset the `close` and `pct_chg` columns.  The optional ML probability
series is a date-indexed partial map, mirroring `ml_probs` and its
`current_date in ml_probs.index` lookup. -/

/-- One asset's bar on one date: the `close` and `pct_chg` columns. -/
structure Bar where
  close : ℚ
  pct_chg : ℚ
deriving DecidableEq

/-- One date of the aligned calendar `common_idx` with both assets'
bars. -/
structure DayRow where
  date : ℤ
  b300 : Bar
  b1000 : Bar
deriving DecidableEq

def defaultBar : Bar := ⟨0, 0⟩

def defaultRow : DayRow := ⟨0, defaultBar, defaultBar⟩

/-- Positional row access `iloc[i]` into the aligned data. -/
def rowAt (data : List DayRow) (i : ℕ) : DayRow := data.getD i defaultRow

/-- The date of row `i` of the aligned calendar. -/
def dateAt (data : List DayRow) (i : ℕ) : ℤ := (rowAt data i).date

/-- The `Trade` dataclass (src/backtest_engine.py lines 19-29). -/
structure Trade where
  asset : Pos
  entry_date : ℤ
  exit_date : ℤ
  entry_value : ℚ
  exit_value : ℚ
  return_pct : ℚ
  holding_days : ℤ
  exit_reason : String
deriving DecidableEq

/-- The configuration values `run_backtest` reads (src/backtest_engine.py
lines 127-130). -/
structure SimConfig where
  commission : ℚ
  daily_rf : ℚ
  ml_trigger : ℚ
  ml_release : ℚ
deriving DecidableEq

/-- The values of src/config.py. -/
def defaultSimConfig : SimConfig :=
  ⟨commission_rate, daily_rf, risk_trigger_threshold, risk_release_threshold⟩

/-- The mutable loop state of `run_backtest`: the curve values written so
far for simulated days (`navs`, in day order), the current curve value
(`curve[i]` after day `i`), the held position `pos`, the open-position
bookkeeping `entry_date` / `entry_val` (never cleared, as in the source),
the hysteresis state `risk_off`, and the trade list. -/
structure SimState where
  navs : List ℚ
  nav : ℚ
  pos : Pos
  entry_date : Option ℤ
  entry_val : ℚ
  risk_off : Bool
  trades : List Trade
deriving DecidableEq

/-- State before the first simulated day: `curve[warmup - 1] = 1`
(from `np.ones`), `pos = "CASH"`, `entry_date = None`, `entry_val = 0.0`,
`risk_off = False`, no trades. -/
def initSimState : SimState := ⟨[], 1, Pos.cash, none, 0, false, []⟩

/-- The ML gate block of `run_backtest` (src/backtest_engine.py lines
167-178): when a probability series was supplied and has a value for the
current date, update the hysteresis state and force the target to CASH
while risk-off; otherwise the whole block is skipped and state and target
pass through unchanged. -/
def mlGateStep (ml_trigger ml_release : ℚ) (ml_probs : Option (ℤ → Option ℚ))
    (current_date : ℤ) (risk_off : Bool) (target : Pos) :
    Bool × Pos × String :=
  match ml_probs with
  | none => (risk_off, target, "")
  | some probs =>
    match probs current_date with
    | none => (risk_off, target, "")
    | some p_risk =>
      let g := runBacktestGate ml_trigger ml_release p_risk risk_off
      (g.1, if g.1 = true then Pos.cash else target, g.2)

/-- Trailing moving average
`close.iloc[i - ma_window + 1 : i + 1].mean()` (src/backtest_engine.py
lines 152-153). -/
def maWindowMean (data : List DayRow) (f : DayRow → ℚ) (i maw : ℕ) : ℚ :=
  (((List.range maw).map (fun k => f (rowAt data (i - maw + 1 + k)))).sum) /
    (maw : ℚ)

/-- The trade-execution block of `run_backtest` (src/backtest_engine.py
lines 180-206), for one day: given the settled curve value `nav`, the
updated gate state and the gated target, close the open trade on a target
change, book the new entry, and deduct transaction costs. -/
def tradeExec (cfg : SimConfig) (current_date : ℤ) (nav : ℚ)
    (risk_off : Bool) (target : Pos) (exit_reason : String)
    (s : SimState) : SimState :=
  if target = s.pos then
    { navs := s.navs ++ [nav], nav := nav, pos := s.pos,
      entry_date := s.entry_date, entry_val := s.entry_val,
      risk_off := risk_off, trades := s.trades }
  else
    let cost_mult : ℚ := if s.pos ≠ Pos.cash ∧ target ≠ Pos.cash then 2 else 1
    let trades :=
      if s.pos ≠ Pos.cash ∧ s.entry_date ≠ none then
        s.trades ++ [{ asset := s.pos,
                       entry_date := s.entry_date.getD 0,
                       exit_date := current_date,
                       entry_value := s.entry_val,
                       exit_value := nav,
                       return_pct := nav / s.entry_val - 1,
                       holding_days := current_date - s.entry_date.getD 0,
                       exit_reason := if exit_reason = "" then "信号切换"
                                      else exit_reason }]
      else s.trades
    { navs := s.navs ++ [nav * (1 - cfg.commission * cost_mult)],
      nav := nav * (1 - cfg.commission * cost_mult), pos := target,
      entry_date := if target ≠ Pos.cash then some current_date
                    else s.entry_date,
      entry_val := if target ≠ Pos.cash then
                     nav * (1 - cfg.commission * cost_mult)
                   else s.entry_val,
      risk_off := risk_off, trades := trades }

/-- One iteration of the day loop of `run_backtest`
(src/backtest_engine.py lines 132-206): settle the day's P&L, compute
momenta, moving averages and the per-asset signals, select the target,
run the ML gate, then execute any position change. -/
def simDay (cfg : SimConfig) (mom maw : ℕ) (data : List DayRow)
    (ml_probs : Option (ℤ → Option ℚ)) (s : SimState) (i : ℕ) : SimState :=
  let row := rowAt data i
  let day_ret : ℚ :=
    match s.pos with
    | Pos.p300 => row.b300.pct_chg / 100
    | Pos.p1000 => row.b1000.pct_chg / 100
    | Pos.cash => cfg.daily_rf
  let nav := s.nav * (1 + day_ret)
  let p300 := row.b300.close
  let p1000 := row.b1000.close
  let m300 := p300 / (rowAt data (i - mom - 1)).b300.close - 1
  let m1000 := p1000 / (rowAt data (i - mom - 1)).b1000.close - 1
  let ma300 := maWindowMean data (fun r => r.b300.close) i maw
  let ma1000 := maWindowMean data (fun r => r.b1000.close) i maw
  let sig300 : Bool := decide (p300 > ma300 ∧ m300 > 0)
  let sig1000 : Bool := decide (p1000 > ma1000 ∧ m1000 > 0)
  let target0 := backtestTarget sig300 sig1000 m300 m1000
  let gate := mlGateStep cfg.ml_trigger cfg.ml_release ml_probs row.date
    s.risk_off target0
  tradeExec cfg row.date nav gate.1 gate.2.1 gate.2.2 s

/-- `warmup = max(momentum_window, ma_window) + 1`
(src/backtest_engine.py line 118). -/
def warmupOf (mom maw : ℕ) : ℕ := max mom maw + 1

/-- The full day loop `for i in range(warmup, n)` of `run_backtest`. -/
def runSim (cfg : SimConfig) (mom maw : ℕ) (data : List DayRow)
    (ml_probs : Option (ℤ → Option ℚ)) : SimState :=
  (List.range' (warmupOf mom maw) (data.length - warmupOf mom maw)).foldl
    (simDay cfg mom maw data ml_probs) initSimState

/-- The embedded `BacktestResult` (src/backtest_engine.py lines 32-61),
with the `start_date` / `end_date` fields the source fills from
`common_idx[warmup]` and `common_idx[-1]` (lines 220-221).
`annual_return`, `sharpe_ratio` and `sortino_ratio` need real powers and
square roots and are outside every claim, so they are not carried. -/
structure BacktestResult where
  equity_curve : List ℚ
  trades : List Trade
  start_date : ℤ
  end_date : ℤ
  total_return : ℚ
  max_drawdown : ℚ
  win_rate : ℚ
  profit_loss_ratio : ℚ
  total_trades : ℕ
  winning_trades : ℕ
  losing_trades : ℕ
  avg_holding_days : ℚ
deriving DecidableEq

/-- Running maximum `equity_curve.cummax()`. -/
def cummaxAux : List ℚ → ℚ → List ℚ
  | [], _ => []
  | x :: xs, m => max m x :: cummaxAux xs (max m x)

def cummaxList (xs : List ℚ) : List ℚ :=
  match xs with
  | [] => []
  | x :: rest => x :: cummaxAux rest x

/-- `series.min()` over a nonempty series. -/
def seriesMin (xs : List ℚ) : ℚ := xs.foldl min (xs.headD 0)

/-- The trade-statistics block of `_calculate_metrics`
(src/backtest_engine.py lines 260-280): returns
`(winning_trades, losing_trades, win_rate, profit_loss_ratio,
avg_holding_days)`, all zero when there are no trades. -/
def tradeStats (trades : List Trade) : ℕ × ℕ × ℚ × ℚ × ℚ :=
  if 0 < trades.length then
    let winning := (trades.filter (fun t => decide (t.return_pct > 0))).length
    let losing := trades.length - winning
    let win_rate := (winning : ℚ) / (trades.length : ℚ)
    let profits := (trades.filter (fun t => decide (t.return_pct > 0))).map
      (fun t => t.return_pct)
    let losses := (trades.filter (fun t => decide (t.return_pct ≤ 0))).map
      (fun t => |t.return_pct|)
    let avg_profit := if profits.length ≠ 0 then profits.sum / (profits.length : ℚ) else 0
    let avg_loss := if losses.length ≠ 0 then losses.sum / (losses.length : ℚ) else 0
    let plr := if avg_loss > 0 then avg_profit / avg_loss else 999 / 10
    let ahd := ((trades.map (fun t => (t.holding_days : ℚ))).sum) /
      (trades.length : ℚ)
    (winning, losing, win_rate, plr, ahd)
  else (0, 0, 0, 0, 0)

/-- `BacktestEngine.run_backtest` (src/backtest_engine.py lines 78-223):
runs the day loop and assembles the `BacktestResult` the source builds at
lines 214-223, rational-valued metrics included (`curve` keeps its
`np.ones` prefix over the warm-up days, so the equity curve spans the
whole aligned calendar; `start_date` / `end_date` are the positional date
lookups `common_idx[warmup]` / `common_idx[-1]`).  This is the value of
the returning executions; the raising ones are modelled by
`run_backtest_checked` below. -/
def run_backtest (cfg : SimConfig) (mom maw : ℕ) (data : List DayRow)
    (ml_probs : Option (ℤ → Option ℚ)) : BacktestResult :=
  let s := runSim cfg mom maw data ml_probs
  let equity_curve :=
    List.replicate (min (warmupOf mom maw) data.length) (1 : ℚ) ++ s.navs
  let trades := s.trades
  let total_return := equity_curve.getLastD 0 / equity_curve.headD 0 - 1
  let drawdown := List.zipWith (fun c m => (c - m) / m) equity_curve
    (cummaxList equity_curve)
  let max_drawdown := seriesMin drawdown
  let st := tradeStats trades
  { equity_curve := equity_curve, trades := trades,
    start_date := dateAt data (warmupOf mom maw),
    end_date := dateAt data (data.length - 1),
    total_return := total_return, max_drawdown := max_drawdown,
    win_rate := st.2.2.1, profit_loss_ratio := st.2.2.2.1,
    total_trades := trades.length, winning_trades := st.1,
    losing_trades := st.2.1, avg_holding_days := st.2.2.2.2 }

/-- `BacktestEngine.run_backtest` with its raising behavior: the
positional lookup `start_date=common_idx[warmup]`
(src/backtest_engine.py line 220) raises `IndexError` whenever
`warmup ≥ len(common_idx)` (on an empty calendar the metrics'
`equity_curve.iloc[-1]` raises first), so the source returns a
`BacktestResult` exactly when `warmup < len(common_idx)`, and the value it
then returns is `run_backtest` above. -/
def run_backtest_checked (cfg : SimConfig) (mom maw : ℕ) (data : List DayRow)
    (ml_probs : Option (ℤ → Option ℚ)) : Except String BacktestResult :=
  if warmupOf mom maw < data.length then
    Except.ok (run_backtest cfg mom maw data ml_probs)
  else Except.error "IndexError: index out of bounds"

/-- The probability lookup of `DMRMLStrategy.generate_signals`
(src/models.py lines 492-495): a date missing from the risk series is
replaced by probability 0. -/
def generate_signals_prob (risk_probs : ℤ → Option ℚ) (d : ℤ) : ℚ :=
  match risk_probs d with
  | some p => p
  | none => 0

/-! ### Optimizer (src/backtest_engine.py
`BacktestEngine.optimize_parameters`, lines 296-401) -/

/-- One row of the optimizer's result table (src/backtest_engine.py
lines 370-380, restricted to the fields the claims touch). -/
structure OptRow where
  momentum : ℕ
  ma : ℕ
  total_return : ℚ
  max_drawdown : ℚ
  is_pass : Bool
deriving DecidableEq

/-- The benchmark return
`df300['close'].iloc[-1] / df300['close'].iloc[30] - 1`
(src/backtest_engine.py lines 337-338). -/
def benchRet (data : List DayRow) : ℚ :=
  (rowAt data (data.length - 1)).b300.close / (rowAt data 30).b300.close - 1

/-- The optimizer's grid loop (src/backtest_engine.py lines 353-387):
each cell calls `run_backtest`; an `IndexError` raised inside a cell (see
`run_backtest_checked`) propagates out of the whole search, discarding the
partial `results` list, so the loop is the error-propagating recursion
below; on a returning cell the acceptance filter
`total_return > bench_ret and max_drawdown > max_dd_limit` and the
best-tracking update are applied and the loop continues.  (`bench_ret` is
computed once before the loop in the source; it is pure, so recomputing
`benchRet data` per cell is the same value.) -/
def optGrid (cfg : SimConfig) (data : List DayRow)
    (metricOf : BacktestResult → ℚ) (maxdd : ℚ) :
    List (ℕ × ℕ) → ((ℕ × ℕ) × ℚ × Option BacktestResult × List OptRow) →
    Except String ((ℕ × ℕ) × ℚ × Option BacktestResult × List OptRow)
  | [], acc => Except.ok acc
  | mp :: rest, acc =>
    match run_backtest_checked cfg mp.1 mp.2 data none with
    | Except.error e => Except.error e
    | Except.ok result =>
      let is_pass := decide (result.total_return > benchRet data
        ∧ result.max_drawdown > maxdd)
      let rows := acc.2.2.2 ++ [⟨mp.1, mp.2, result.total_return,
        result.max_drawdown, is_pass⟩]
      optGrid cfg data metricOf maxdd rest
        (if is_pass = true ∧ metricOf result > acc.2.1 then
          ((mp.1, mp.2), metricOf result, some result, rows)
        else (acc.1, acc.2.1, acc.2.2.1, rows))

/-- `BacktestEngine.optimize_parameters` (src/backtest_engine.py lines
296-401): the benchmark lookup `df300['close'].iloc[30]` (line 338)
raises `IndexError` when the aligned calendar has at most 30 rows;
otherwise the nested grid search runs (each cell's `run_backtest` may
itself raise, see `optGrid`), with the best tracked by `metricOf` (the
`getattr(result, metric)` scalar) from initial `best_score = -999`,
`best_params = (20, 12)`, `best_result = None`; on completion it returns
`(best_params, best_result, results table)`. -/
def optimize_parameters (cfg : SimConfig) (data : List DayRow)
    (momentum_range ma_range : List ℕ) (metricOf : BacktestResult → ℚ)
    (max_dd_limit : ℚ) :
    Except String ((ℕ × ℕ) × Option BacktestResult × List OptRow) :=
  if data.length ≤ 30 then Except.error "IndexError: index out of bounds"
  else
    (optGrid cfg data metricOf max_dd_limit
      (momentum_range.flatMap (fun m => ma_range.map (fun a => (m, a))))
      ((20, 12), (-999 : ℚ), (none : Option BacktestResult),
        ([] : List OptRow))).map
      (fun fin => (fin.1, fin.2.2.1, fin.2.2.2))

/-! ### Statement apparatus and concrete data for the simulator claims -/

/-- The aligned calendar has strictly increasing dates (pandas
`DatetimeIndex.intersection` of two sorted unique indexes). -/
def DatesMono (data : List DayRow) : Prop :=
  ∀ j k, j < k → k < data.length → dateAt data j < dateAt data k

/-- Trade-list invariant of the simulator relative to a date bound `D`
(the date of the last processed day): the trade list is chronologically
chained and non-overlapping, every trade closes strictly after it opens
and not after `D`, and an open position has its entry bookkeeping set,
entered no later than `D` and no earlier than any recorded exit. -/
def SimInvD (D : ℤ) (s : SimState) : Prop :=
  List.Chain' (fun a b => a.exit_date ≤ b.entry_date) s.trades
  ∧ (∀ tr ∈ s.trades, tr.entry_date < tr.exit_date)
  ∧ (∀ tr ∈ s.trades, tr.exit_date ≤ D)
  ∧ (s.pos ≠ Pos.cash → ∃ e, s.entry_date = some e ∧ e ≤ D
      ∧ (∀ tr ∈ s.trades, tr.exit_date ≤ e)
      ∧ (∀ tr ∈ s.trades, tr.entry_date < e))

/-- Concrete 4-day aligned data for the C7 counterexample: constant
prices, dates 10-13. -/
def c7Data : List DayRow :=
  [⟨10, ⟨1, 0⟩, ⟨1, 0⟩⟩, ⟨11, ⟨1, 0⟩, ⟨1, 0⟩⟩,
   ⟨12, ⟨1, 0⟩, ⟨1, 0⟩⟩, ⟨13, ⟨1, 0⟩, ⟨1, 0⟩⟩]

/-- Risk series that trips the gate on date 12 and has NO value for
date 13. -/
def c7ProbsA : ℤ → Option ℚ := fun d => if d = 12 then some (9 / 10) else none

/-- Same series with probability 0 explicitly present on date 13. -/
def c7ProbsB : ℤ → Option ℚ :=
  fun d => if d = 12 then some (9 / 10) else if d = 13 then some 0 else none

/-- Concrete 5-day data for the C3 / C4 / C10 witnesses: asset A's close
doubles every day while asset B is flat, so with `momentum_window = 1`,
`ma_window = 2` the run enters asset A on the first post-warm-up day and
is still holding it on the final day. -/
def c10Data : List DayRow :=
  [⟨0, ⟨1, 0⟩, ⟨1, 0⟩⟩, ⟨1, ⟨2, 0⟩, ⟨1, 0⟩⟩, ⟨2, ⟨4, 0⟩, ⟨1, 0⟩⟩,
   ⟨3, ⟨8, 0⟩, ⟨1, 0⟩⟩, ⟨4, ⟨16, 0⟩, ⟨1, 0⟩⟩]

/-- Concrete 32-row aligned data for the C9 witness — an input the source
completes on: more than 30 rows for the static benchmark lookback
`iloc[30]`, and warm-up `31 < 32` for the grid cell `(30, 30)`.  Both
assets close at 70 on the first row, at 7 through row 30 and at 70 again
on the last row, so the benchmark return is `70/7 - 1 = 9`, while on the
single simulated day the cell's momentum `close[31]/close[0] - 1` is
`70/70 - 1 = 0`: the run stays in cash, earns one day of the risk-free
rate, and fails the acceptance filter. -/
def c9Data : List DayRow :=
  [⟨0, ⟨70, 0⟩, ⟨70, 0⟩⟩, ⟨1, ⟨7, -90⟩, ⟨7, -90⟩⟩,
   ⟨2, ⟨7, 0⟩, ⟨7, 0⟩⟩, ⟨3, ⟨7, 0⟩, ⟨7, 0⟩⟩, ⟨4, ⟨7, 0⟩, ⟨7, 0⟩⟩,
   ⟨5, ⟨7, 0⟩, ⟨7, 0⟩⟩, ⟨6, ⟨7, 0⟩, ⟨7, 0⟩⟩, ⟨7, ⟨7, 0⟩, ⟨7, 0⟩⟩,
   ⟨8, ⟨7, 0⟩, ⟨7, 0⟩⟩, ⟨9, ⟨7, 0⟩, ⟨7, 0⟩⟩, ⟨10, ⟨7, 0⟩, ⟨7, 0⟩⟩,
   ⟨11, ⟨7, 0⟩, ⟨7, 0⟩⟩, ⟨12, ⟨7, 0⟩, ⟨7, 0⟩⟩, ⟨13, ⟨7, 0⟩, ⟨7, 0⟩⟩,
   ⟨14, ⟨7, 0⟩, ⟨7, 0⟩⟩, ⟨15, ⟨7, 0⟩, ⟨7, 0⟩⟩, ⟨16, ⟨7, 0⟩, ⟨7, 0⟩⟩,
   ⟨17, ⟨7, 0⟩, ⟨7, 0⟩⟩, ⟨18, ⟨7, 0⟩, ⟨7, 0⟩⟩, ⟨19, ⟨7, 0⟩, ⟨7, 0⟩⟩,
   ⟨20, ⟨7, 0⟩, ⟨7, 0⟩⟩, ⟨21, ⟨7, 0⟩, ⟨7, 0⟩⟩, ⟨22, ⟨7, 0⟩, ⟨7, 0⟩⟩,
   ⟨23, ⟨7, 0⟩, ⟨7, 0⟩⟩, ⟨24, ⟨7, 0⟩, ⟨7, 0⟩⟩, ⟨25, ⟨7, 0⟩, ⟨7, 0⟩⟩,
   ⟨26, ⟨7, 0⟩, ⟨7, 0⟩⟩, ⟨27, ⟨7, 0⟩, ⟨7, 0⟩⟩, ⟨28, ⟨7, 0⟩, ⟨7, 0⟩⟩,
   ⟨29, ⟨7, 0⟩, ⟨7, 0⟩⟩, ⟨30, ⟨7, 0⟩, ⟨7, 0⟩⟩, ⟨31, ⟨70, 900⟩, ⟨70, 900⟩⟩]

/-! ### C1: walk-forward purge invariant -/

lemma sliceNorm_ofNat (n a : ℕ) : sliceNorm n (a : ℤ) = min a n := by
  simp [sliceNorm]

lemma mem_retrainIndices {n w h st t : ℕ}
    (ht : t ∈ retrainIndices n w h st) :
    w + h ≤ t ∧ t + h < n := by
  simp only [retrainIndices, List.mem_map, List.mem_range] at ht
  obtain ⟨k, hk, rfl⟩ := ht
  rcases Nat.eq_zero_or_pos st with hst | hst
  · subst hst; simp at hk
  constructor
  · omega
  · have hdiv := (Nat.le_div_iff_mul_le hst).mp (Nat.succ_le_of_lt hk)
    have hmul : Nat.succ k * st = k * st + st := Nat.succ_mul k st
    omega

/-- C1: walk-forward purge invariant.  For every retrain anchor `t` of
`MLRiskModel.fit_predict` (ranging over
`range(train_window + horizon, len(data) - horizon, step)`), every row
used for training lies in the slice `[t - train_window, t - horizon)`;
in particular `j + horizon < t`, so no training row's index is within
`horizon` positions before `t`, with no wrap-around at array
boundaries. -/
theorem walk_forward_purge (data : List MLRow) (w h st t j : ℕ)
    (ht : t ∈ retrainIndices data.length w h st)
    (hj : j ∈ trainIdxOf data w h t) :
    t - w ≤ j ∧ j < t - h ∧ j + h < t := by
  obtain ⟨hwh, hn⟩ := mem_retrainIndices ht
  have hj' := List.mem_filter.mp hj
  have hmem := hj'.1
  have hcw : ((t : ℤ) - w) = ((t - w : ℕ) : ℤ) := by omega
  have hch : ((t : ℤ) - h) = ((t - h : ℕ) : ℤ) := by omega
  rw [ilocIdx, hcw, hch, sliceNorm_ofNat, sliceNorm_ofNat] at hmem
  have hminw : min (t - w) data.length = t - w := by omega
  have hminh : min (t - h) data.length = t - h := by omega
  rw [hminw, hminh] at hmem
  have := List.mem_range'_1.mp hmem
  omega

/-- Witness for C1 at `train_window = 6`, `horizon = 2`, `step = 4`,
retrain anchor `t = 12`, training row `j = 7`. -/
theorem walk_forward_purge_witness :
    12 - 6 ≤ 7 ∧ 7 < 12 - 2 ∧ 7 + 2 < 12 :=
  walk_forward_purge purgeWitnessData 6 2 4 12 7 (by decide) (by decide)

/-! ### C6: `fit_predict` on small data

The spec says `fit_predict` never raises for small data.  In the source,
the local variable `model` is first assigned inside the retrain loop
(src/models.py line 331, after the `continue` guard at line 324); when the
loop body never reaches that line — in particular whenever the data is too
short for even one retrain iteration — the trailing statement
`self.model = model` (line 353) raises `UnboundLocalError`.  The theorem
below evaluates the embedded code at such inputs. -/

/-- C6: whenever the input frame has at most `train_window + 2 * horizon`
rows, the retrain loop of `MLRiskModel.fit_predict` runs zero iterations,
the local variable `model` is never assigned, and the function raises
(`Except.error`) instead of returning the probability series the spec
promises. -/
theorem fit_predict_small_data_raises (proba : ℕ → ℕ → ℚ) (data : List MLRow)
    (w h st : ℕ) (hsmall : data.length ≤ w + 2 * h) :
    fit_predict proba data w h st = Except.error
      "UnboundLocalError: local variable model referenced before assignment" := by
  have hempty : retrainIndices data.length w h st = [] := by
    have hz : ((data.length - h) - (w + h) + st - 1) / st = 0 := by
      rcases Nat.eq_zero_or_pos st with h0 | h0
      · subst h0; simp
      · exact Nat.div_eq_of_lt (by omega)
    simp only [retrainIndices, hz]
    rfl
  simp [fit_predict, fit_predict_scan, hempty]

/-- Concrete failing input for C6: a 30-row frame with the configured
`train_window = 252`, `horizon = 5`, `step = 20` makes `fit_predict`
raise `UnboundLocalError`. -/
theorem fit_predict_small_data_raises_witness :
    fit_predict (fun _ _ => 0) (List.replicate 30 ⟨true, 0⟩) 252 5 20 =
      Except.error
        "UnboundLocalError: local variable model referenced before assignment" :=
  fit_predict_small_data_raises (fun _ _ => 0) (List.replicate 30 ⟨true, 0⟩)
    252 5 20 (by simp)

/-! ### C2: strict threshold comparisons of the hysteresis gate -/

/-- C2: the hysteresis gate uses strict comparisons.  From NORMAL
(`is_risk_off = false`) the gate enters RISK_OFF iff `p > trigger` (so
`p = trigger` never trips it); from RISK_OFF it returns to NORMAL iff
`p < release` (so any `p < release` always releases it); for any `p` in
the dead zone `release ≤ p ≤ trigger` the state is unchanged.  This holds
both for `MLRiskModel.get_risk_signal` (with explicitly supplied nonzero
thresholds, which Python's `or`-defaulting leaves intact) and for the
inline gate of `BacktestEngine.run_backtest`. -/
theorem hysteresis_strict_thresholds (trigger release p : ℚ) (s : Bool)
    (htrig : trigger ≠ 0) (hrel : release ≠ 0) :
    ((get_risk_signal p false (some trigger) (some release)).1 = true ↔ p > trigger)
    ∧ ((get_risk_signal p true (some trigger) (some release)).1 = false ↔ p < release)
    ∧ (release ≤ p → p ≤ trigger →
        (get_risk_signal p s (some trigger) (some release)).1 = s)
    ∧ ((runBacktestGate trigger release p false).1 = true ↔ p > trigger)
    ∧ ((runBacktestGate trigger release p true).1 = false ↔ p < release)
    ∧ (release ≤ p → p ≤ trigger → (runBacktestGate trigger release p s).1 = s) := by
  have hres : pyOrQ (some trigger) risk_trigger_threshold = trigger := by
    simp [pyOrQ, htrig]
  have hres' : pyOrQ (some release) risk_release_threshold = release := by
    simp [pyOrQ, hrel]
  refine ⟨?_, ?_, ?_, ?_, ?_, ?_⟩
  · simp only [get_risk_signal, hres, hres']
    split_ifs with h1 h2 h3 <;> simp_all
  · simp only [get_risk_signal, hres, hres']
    split_ifs with h1 h2 h3 <;> simp_all
  · intro hle hge
    simp only [get_risk_signal, hres, hres']
    split_ifs with h1 h2 h3
    · exact absurd h1.2 (not_lt.mpr hge)
    · exact absurd h2.2 (not_lt.mpr hle)
    · simp_all
    · simp_all
  · simp only [runBacktestGate]
    split_ifs with h1 h2 <;> simp_all
  · simp only [runBacktestGate]
    split_ifs with h1 h2 <;> simp_all
  · intro hle hge
    simp only [runBacktestGate]
    split_ifs with h1 h2
    · exact absurd h1.2 (not_lt.mpr hge)
    · exact absurd h2.2 (not_lt.mpr hle)
    · rfl

/-- Witness for C2 at `trigger = 0.40`, `release = 0.33`, `p = 0.40`,
state NORMAL: `p` exactly at the trigger does not trip the gate. -/
theorem hysteresis_strict_thresholds_witness :
    ((get_risk_signal (2/5) false (some (2/5)) (some (33/100))).1 = true ↔ (2/5 : ℚ) > 2/5)
    ∧ ((get_risk_signal (2/5) true (some (2/5)) (some (33/100))).1 = false ↔ (2/5 : ℚ) < 33/100)
    ∧ ((33/100 : ℚ) ≤ 2/5 → (2/5 : ℚ) ≤ 2/5 →
        (get_risk_signal (2/5) false (some (2/5)) (some (33/100))).1 = false)
    ∧ ((runBacktestGate (2/5) (33/100) (2/5) false).1 = true ↔ (2/5 : ℚ) > 2/5)
    ∧ ((runBacktestGate (2/5) (33/100) (2/5) true).1 = false ↔ (2/5 : ℚ) < 33/100)
    ∧ ((33/100 : ℚ) ≤ 2/5 → (2/5 : ℚ) ≤ 2/5 →
        (runBacktestGate (2/5) (33/100) (2/5) false).1 = false) :=
  hysteresis_strict_thresholds (2/5) (33/100) (2/5) false
    (by norm_num) (by norm_num)

/-! ### C5: tie-break when both assets pass with equal momentum -/

/-- Counterexample to C5: with both assets passing the absolute-momentum
filter (price 2 > MA 1, momentum 1 > 0) and momentum values exactly equal,
both `DMRStrategy.generate_signal` and the inline selection of
`BacktestEngine.run_backtest` pick the `"1000"` index (second-checked
asset), not the `"300"` index claimed. -/
theorem equal_momentum_tie_cex :
    (generate_signal 2 2 1 1 1 1).1 = Pos.p1000
    ∧ backtestTarget true true 1 1 = Pos.p1000
    ∧ Pos.p1000 ≠ Pos.p300 := by
  refine ⟨?_, ?_, by decide⟩ <;> decide

/-- C5 amended: when both assets pass the per-asset absolute-momentum
filter and their momentum values are exactly equal, the second-checked
asset (the 1000 index) is selected, because the comparison
`momentum_300 > momentum_1000` is strict and its `else`-branch wins the
tie.  Holds for `DMRStrategy.generate_signal` and for the inline target
selection of `BacktestEngine.run_backtest`. -/
theorem equal_momentum_tie_amended (p300 p1000 m300 m1000 ma300 ma1000 : ℚ)
    (h300 : p300 > ma300 ∧ m300 > 0) (h1000 : p1000 > ma1000 ∧ m1000 > 0)
    (heq : m300 = m1000) :
    (generate_signal p300 p1000 m300 m1000 ma300 ma1000).1 = Pos.p1000
    ∧ backtestTarget true true m300 m1000 = Pos.p1000 := by
  obtain ⟨ha, hb⟩ := h300
  obtain ⟨hc, hd⟩ := h1000
  subst heq
  constructor
  · simp [generate_signal, ha, hb, hc, hd]
  · simp [backtestTarget]

/-- Witness for the amended C5 at prices 2, MAs 1, momenta 1 = 1. -/
theorem equal_momentum_tie_amended_witness :
    (generate_signal 2 2 1 1 1 1).1 = Pos.p1000
    ∧ backtestTarget true true 1 1 = Pos.p1000 :=
  equal_momentum_tie_amended 2 2 1 1 1 1
    (by norm_num) (by norm_num) rfl

/-! ### C8: a skipped retrain block -/

lemma getD_replicate_zero (n j : ℕ) : (List.replicate n (0 : ℚ)).getD j 0 = 0 := by
  induction n generalizing j with
  | zero => simp
  | succ m ih =>
    cases j with
    | zero => simp [List.replicate]
    | succ i => simp [List.replicate]

lemma writeBlock_length (l : List ℚ) (t st : ℕ) (f : ℕ → ℚ) :
    (writeBlock l t st f).length = l.length := by
  simp [writeBlock]

lemma writeBlock_getD (l : List ℚ) (t st : ℕ) (f : ℕ → ℚ) (j : ℕ)
    (hj : j < l.length) :
    (writeBlock l t st f).getD j 0 =
      if t ≤ j ∧ j < t + st then f j else l.getD j 0 := by
  have hj' : j < (writeBlock l t st f).length := by
    rw [writeBlock_length]; exact hj
  rw [List.getD_eq_getElem _ _ hj']
  simp [writeBlock]

lemma ewmAux_length (d : ℚ) (xs : List ℚ) : ∀ num den : ℚ,
    (ewmAux d xs num den).length = xs.length := by
  induction xs with
  | nil => intro num den; rfl
  | cons x xs ih => intro num den; simp [ewmAux, ih]

lemma ewmMean_length (span : ℕ) (xs : List ℚ) :
    (ewmMean span xs).length = xs.length := ewmAux_length _ _ _ _

lemma ewmAux_getD (d : ℚ) (xs : List ℚ) : ∀ (j : ℕ) (num den : ℚ),
    j < xs.length →
    (ewmAux d xs num den).getD j 0 =
      ewmNumF d num (xs.take (j + 1)) / ewmDenF d den (xs.take (j + 1)) := by
  induction xs with
  | nil => intro j num den hj; simp at hj
  | cons x xs ih =>
    intro j num den hj
    cases j with
    | zero => simp [ewmAux, ewmNumF, ewmDenF]
    | succ i =>
      have hi : i < xs.length := by simpa using hj
      simp only [ewmAux, List.getD_cons_succ, List.take_succ_cons]
      rw [ih i _ _ hi]
      simp [ewmNumF, ewmDenF]

lemma ewmNumF_nonneg (d : ℚ) (hd : 0 ≤ d) :
    ∀ (xs : List ℚ) (init : ℚ), 0 ≤ init → (∀ x ∈ xs, 0 ≤ x) →
      0 ≤ ewmNumF d init xs := by
  intro xs
  induction xs with
  | nil => intro init hi _; simpa [ewmNumF] using hi
  | cons x xs ih =>
    intro init hi hxs
    have hx : 0 ≤ x := hxs x (List.mem_cons_self x xs)
    have h1 : 0 ≤ x + d * init := add_nonneg hx (mul_nonneg hd hi)
    have := ih (x + d * init) h1 (fun y hy => hxs y (List.mem_cons_of_mem x hy))
    simpa [ewmNumF] using this

lemma ewmDenF_nonneg (d : ℚ) (hd : 0 ≤ d) :
    ∀ (xs : List ℚ) (init : ℚ), 0 ≤ init → 0 ≤ ewmDenF d init xs := by
  intro xs
  induction xs with
  | nil => intro init hi; simpa [ewmDenF] using hi
  | cons x xs ih =>
    intro init hi
    have h1 : 0 ≤ 1 + d * init := by
      have := mul_nonneg hd hi
      linarith
    have := ih (1 + d * init) h1
    simpa [ewmDenF] using this

lemma ewmDenF_ge_one (d : ℚ) (hd : 0 ≤ d) :
    ∀ (xs : List ℚ) (init : ℚ), 0 ≤ init → xs ≠ [] →
      1 ≤ ewmDenF d init xs := by
  intro xs
  induction xs with
  | nil => intro init _ hne; exact absurd rfl hne
  | cons x xs ih =>
    intro init hi _
    rcases eq_or_ne xs [] with hxs | hxs
    · subst hxs
      have := mul_nonneg hd hi
      simp only [ewmDenF, List.foldl_cons, List.foldl_nil]
      linarith
    · have h1 : 0 ≤ 1 + d * init := by
        have := mul_nonneg hd hi
        linarith
      have := ih (1 + d * init) h1 hxs
      simpa [ewmDenF] using this

lemma ewmNumF_zero (d : ℚ) :
    ∀ xs : List ℚ, (∀ x ∈ xs, x = 0) → ewmNumF d 0 xs = 0 := by
  intro xs
  induction xs with
  | nil => intro _; rfl
  | cons x xs ih =>
    intro hxs
    have hx : x = 0 := hxs x (List.mem_cons_self x xs)
    have := ih (fun y hy => hxs y (List.mem_cons_of_mem x hy))
    simpa [ewmNumF, hx] using this

lemma take_succ_getD (xs : List ℚ) (j : ℕ) (h : j < xs.length) :
    xs.take (j + 1) = xs.take j ++ [xs.getD j 0] := by
  rw [List.take_succ]
  congr 1
  rw [List.getD_eq_getElem _ _ h]
  simp [List.getElem?_eq_getElem h]

lemma retrainIndices_sep {n w h st t u : ℕ}
    (ht : t ∈ retrainIndices n w h st) (hu : u ∈ retrainIndices n w h st)
    (hne : t ≠ u) : t + st ≤ u ∨ u + st ≤ t := by
  simp only [retrainIndices, List.mem_map, List.mem_range] at ht hu
  obtain ⟨k, _, rfl⟩ := ht
  obtain ⟨k', _, rfl⟩ := hu
  have hkk : k ≠ k' := by rintro rfl; exact hne rfl
  rcases Nat.lt_or_ge k k' with hlt | hge
  · left
    have hmul : (k + 1) * st ≤ k' * st := Nat.mul_le_mul_right st hlt
    have he : (k + 1) * st = k * st + st := by rw [Nat.add_mul, Nat.one_mul]
    omega
  · have hlt : k' < k := lt_of_le_of_ne hge (Ne.symm hkk)
    right
    have hmul : (k' + 1) * st ≤ k * st := Nat.mul_le_mul_right st hlt
    have he : (k' + 1) * st = k' * st + st := by rw [Nat.add_mul, Nat.one_mul]
    omega

lemma scan_skip_block (proba : ℕ → ℕ → ℚ) (data : List MLRow)
    (w h st t : ℕ) (ht : t ∈ retrainIndices data.length w h st)
    (hsk : skipCond data w h t = true) :
    ∀ (l : List ℕ) (acc : List ℚ × Bool),
      (∀ u ∈ l, u ∈ retrainIndices data.length w h st) →
      acc.1.length = data.length →
      (∀ j, t ≤ j → j < t + st → acc.1.getD j 0 = 0) →
      (l.foldl (fun acc u =>
          if skipCond data w h u then acc
          else (writeBlock acc.1 u st (proba u), true)) acc).1.length = data.length
      ∧ ∀ j, t ≤ j → j < t + st →
          (l.foldl (fun acc u =>
            if skipCond data w h u then acc
            else (writeBlock acc.1 u st (proba u), true)) acc).1.getD j 0 = 0 := by
  intro l
  induction l with
  | nil => intro acc _ hlen hz; exact ⟨hlen, hz⟩
  | cons u l ih =>
    intro acc hmem hlen hz
    simp only [List.foldl_cons]
    by_cases hu : skipCond data w h u = true
    · rw [if_pos hu]
      exact ih acc (fun v hv => hmem v (List.mem_cons_of_mem _ hv)) hlen hz
    · rw [if_neg hu]
      refine ih _ (fun v hv => hmem v (List.mem_cons_of_mem _ hv))
        (by simp [writeBlock_length, hlen]) ?_
      intro j hj1 hj2
      have hune : u ≠ t := by rintro rfl; exact hu hsk
      have husep := retrainIndices_sep (hmem u (List.mem_cons_self u l)) ht hune
      by_cases hjl : j < acc.1.length
      · rw [writeBlock_getD _ _ _ _ _ hjl, if_neg (by omega)]
        exact hz j hj1 hj2
      · rw [List.getD_eq_default]
        rw [writeBlock_length]
        omega

lemma fit_predict_raw_length (proba : ℕ → ℕ → ℚ) (data : List MLRow)
    (w h st : ℕ) :
    (fit_predict_raw proba data w h st).length = data.length := by
  suffices hgen : ∀ (l : List ℕ) (acc : List ℚ × Bool),
      acc.1.length = data.length →
      (l.foldl (fun acc u =>
        if skipCond data w h u then acc
        else (writeBlock acc.1 u st (proba u), true)) acc).1.length =
        data.length by
    exact hgen _ _ (by simp)
  intro l
  induction l with
  | nil => intro acc hl; exact hl
  | cons u l ih =>
    intro acc hl
    simp only [List.foldl_cons]
    by_cases hu : skipCond data w h u = true
    · rw [if_pos hu]; exact ih acc hl
    · rw [if_neg hu]; exact ih _ (by simp [writeBlock_length, hl])

/-- C8 amended: when a retrain iteration of `MLRiskModel.fit_predict` at
anchor `t` is skipped (fewer than 100 valid rows after `dropna`, or fewer
than two distinct label classes), the RAW probability block for
`[t, t + step)` is left at 0 — no other retrain writes into it — but the
exposed series is the span-5 EWM of the raw series, so over the skipped
block it does not hold the previous block's smoothed value: it is 0 when
every earlier entry is 0 (no earlier block ever filled), and otherwise it
continues the EWM with zero inputs, weakly decreasing and strictly
decreasing from any positive value, decaying toward 0. -/
theorem retrain_skip_block_amended (proba : ℕ → ℕ → ℚ) (data : List MLRow)
    (w h st t : ℕ) (ht : t ∈ retrainIndices data.length w h st)
    (hsk : skipCond data w h t = true) :
    (∀ ys, fit_predict proba data w h st = Except.ok ys →
        ys = ewmMean 5 (fit_predict_raw proba data w h st))
    ∧ (∀ j, t ≤ j → j < t + st →
        (fit_predict_raw proba data w h st).getD j 0 = 0)
    ∧ ((∀ k, k < t → (fit_predict_raw proba data w h st).getD k 0 = 0) →
        ∀ j, t ≤ j → j < t + st →
        (ewmMean 5 (fit_predict_raw proba data w h st)).getD j 0 = 0)
    ∧ ((∀ x ∈ fit_predict_raw proba data w h st, 0 ≤ x) →
        ∀ j, t ≤ j → j + 1 < t + st → j + 1 < data.length →
        (ewmMean 5 (fit_predict_raw proba data w h st)).getD (j + 1) 0 ≤
          (ewmMean 5 (fit_predict_raw proba data w h st)).getD j 0
        ∧ (0 < (ewmMean 5 (fit_predict_raw proba data w h st)).getD j 0 →
            (ewmMean 5 (fit_predict_raw proba data w h st)).getD (j + 1) 0 <
              (ewmMean 5 (fit_predict_raw proba data w h st)).getD j 0)) := by
  set raw := fit_predict_raw proba data w h st with hraw
  have hrawlen : raw.length = data.length := fit_predict_raw_length _ _ _ _ _
  have hblock : ∀ j, t ≤ j → j < t + st → raw.getD j 0 = 0 := by
    have hz := (scan_skip_block proba data w h st t ht hsk
        (retrainIndices data.length w h st)
        (List.replicate data.length 0, false)
        (fun u hu => hu) (by simp)
        (fun j _ _ => getD_replicate_zero _ _)).2
    exact hz
  have hd : (0 : ℚ) ≤ 1 - 2 / (((5 : ℕ) : ℚ) + 1) := by norm_num
  refine ⟨?_, hblock, ?_, ?_⟩
  · intro ys hy
    have hfp : fit_predict proba data w h st =
        (if (fit_predict_scan proba data w h st).2 = true then
          Except.ok (ewmMean 5 (fit_predict_scan proba data w h st).1)
        else Except.error
          "UnboundLocalError: local variable model referenced before assignment") :=
      rfl
    rw [hfp] at hy
    split at hy
    · injection hy with h2
      exact h2.symm
    · exact absurd hy (by simp)
  · intro hpre j hj1 hj2
    by_cases hjn : j < data.length
    · have hjr : j < raw.length := by omega
      rw [ewmMean, ewmAux_getD _ _ _ _ _ hjr]
      rw [ewmNumF_zero]
      · exact zero_div _
      · intro x hx
        obtain ⟨i, hi, hieq⟩ := List.mem_iff_getElem.mp hx
        have hi' : i < j + 1 ∧ i < raw.length := by
          have h2 := hi
          rw [List.length_take] at h2
          omega
        rw [List.getElem_take] at hieq
        have hig : raw.getD i 0 = x := by
          rw [List.getD_eq_getElem _ _ hi'.2]
          exact hieq
        rcases Nat.lt_or_ge i t with hit | hit
        · rw [← hig]; exact hpre i hit
        · rw [← hig]; exact hblock i hit (by omega)
    · rw [List.getD_eq_default]
      rw [ewmMean_length]
      omega
  · intro hnn j hj1 hj2 hjn
    have hjr : j < raw.length := by omega
    have hjr1 : j + 1 < raw.length := by omega
    have hx1 : raw.getD (j + 1) 0 = 0 := hblock (j + 1) (by omega) (by omega)
    rw [ewmMean, ewmAux_getD _ _ _ _ _ hjr, ewmAux_getD _ _ _ _ _ hjr1]
    rw [take_succ_getD raw (j + 1) hjr1, hx1]
    set d := (1 : ℚ) - 2 / (((5 : ℕ) : ℚ) + 1) with hdd
    set N := ewmNumF d 0 (raw.take (j + 1)) with hN
    set D := ewmDenF d 0 (raw.take (j + 1)) with hD
    have hNapp : ewmNumF d 0 (raw.take (j + 1) ++ [0]) = 0 + d * N := by
      rw [ewmNumF, List.foldl_append]
      rfl
    have hDapp : ewmDenF d 0 (raw.take (j + 1) ++ [0]) = 1 + d * D := by
      rw [ewmDenF, List.foldl_append]
      rfl
    rw [hNapp, hDapp, zero_add]
    have hN0 : 0 ≤ N := by
      apply ewmNumF_nonneg d hd _ _ le_rfl
      intro x hx
      exact hnn x (List.take_subset _ _ hx)
    have htne : raw.take (j + 1) ≠ [] := by
      apply List.ne_nil_of_length_pos
      rw [List.length_take]
      omega
    have hD1 : 1 ≤ D := ewmDenF_ge_one d hd _ _ le_rfl htne
    have hD0 : (0 : ℚ) < D := by linarith
    have hDb : (0 : ℚ) < 1 + d * D := by nlinarith
    constructor
    · rw [div_le_div_iff₀ hDb hD0]
      nlinarith
    · intro hpos
      have hNpos : 0 < N := by
        rcases div_pos_iff.mp hpos with ⟨h1, _⟩ | ⟨_, h2⟩
        · exact h1
        · linarith
      rw [div_lt_div_iff₀ hDb hD0]
      nlinarith

lemma c8_raw_eq :
    fit_predict_raw c8Proba c8Data 101 1 10 =
      writeBlock (List.replicate 122 0) 102 10 (c8Proba 102) := by
  rfl

lemma c8_raw_nonneg : ∀ x ∈ fit_predict_raw c8Proba c8Data 101 1 10, 0 ≤ x := by
  rw [c8_raw_eq]
  intro x hx
  simp only [writeBlock, List.mem_map, List.mem_range] at hx
  obtain ⟨jj, hjj, rfl⟩ := hx
  split_ifs
  · norm_num [c8Proba]
  · rw [getD_replicate_zero]

lemma ewmNumF_append (d : ℚ) (A : List ℚ) (x : ℚ) :
    ewmNumF d 0 (A ++ [x]) = x + d * ewmNumF d 0 A := by
  simp [ewmNumF, List.foldl_append]

lemma ewmNumF_append_zero (d : ℚ) (A : List ℚ) :
    ewmNumF d 0 (A ++ [0]) = d * ewmNumF d 0 A := by
  simp [ewmNumF, List.foldl_append]

lemma ewmDenF_append_zero (d : ℚ) (A : List ℚ) :
    ewmDenF d 0 (A ++ [0]) = 1 + d * ewmDenF d 0 A := by
  simp [ewmDenF, List.foldl_append]

/-- Counterexample to C8 at the concrete 122-row frame `c8Data` with
`train_window = 101`, `horizon = 1`, `step = 10`: the retrain at `t = 112`
is skipped, yet the exposed smoothed probability at position 112 (the
first position of the skipped block) differs from the smoothed value at
position 111 (the last position of the previous, filled block) — the EWM
decays instead of holding the previous block's smoothed value. -/
theorem retrain_skip_block_cex :
    (112 : ℕ) ∈ retrainIndices c8Data.length 101 1 10
    ∧ skipCond c8Data 101 1 112 = true
    ∧ fit_predict c8Proba c8Data 101 1 10 =
        Except.ok (ewmMean 5 (fit_predict_raw c8Proba c8Data 101 1 10))
    ∧ (ewmMean 5 (fit_predict_raw c8Proba c8Data 101 1 10)).getD 112 0 ≠
        (ewmMean 5 (fit_predict_raw c8Proba c8Data 101 1 10)).getD 111 0 := by
  refine ⟨by decide, by decide, by rfl, ?_⟩
  set raw := fit_predict_raw c8Proba c8Data 101 1 10 with hrawdef
  have hlen : raw.length = 122 := by
    rw [hrawdef, c8_raw_eq, writeBlock_length]
    simp
  have hjr : (111 : ℕ) < raw.length := by omega
  have hjr1 : (112 : ℕ) < raw.length := by omega
  have h111 : raw.getD 111 0 = 9 / 10 := by
    rw [hrawdef, c8_raw_eq, writeBlock_getD _ _ _ _ _ (by simp), if_pos (by omega)]
    rfl
  have h112 : raw.getD 112 0 = 0 := by
    rw [hrawdef, c8_raw_eq, writeBlock_getD _ _ _ _ _ (by simp), if_neg (by omega)]
    exact getD_replicate_zero _ _
  have hnn : ∀ x ∈ raw, 0 ≤ x := c8_raw_nonneg
  have hd : (0 : ℚ) ≤ 1 - 2 / (((5 : ℕ) : ℚ) + 1) := by norm_num
  rw [ewmMean, ewmAux_getD _ _ _ _ _ hjr1, ewmAux_getD _ _ _ _ _ hjr]
  show ewmNumF ((1 : ℚ) - 2 / (((5 : ℕ) : ℚ) + 1)) 0 (raw.take 113) /
        ewmDenF ((1 : ℚ) - 2 / (((5 : ℕ) : ℚ) + 1)) 0 (raw.take 113) ≠
      ewmNumF ((1 : ℚ) - 2 / (((5 : ℕ) : ℚ) + 1)) 0 (raw.take 112) /
        ewmDenF ((1 : ℚ) - 2 / (((5 : ℕ) : ℚ) + 1)) 0 (raw.take 112)
  have ht113 : raw.take 113 = raw.take 112 ++ [(0 : ℚ)] := by
    have h := take_succ_getD raw 112 hjr1
    rw [h112] at h
    norm_num at h
    exact h
  have ht112 : raw.take 112 = raw.take 111 ++ [(9 / 10 : ℚ)] := by
    have h := take_succ_getD raw 111 hjr
    rw [h111] at h
    norm_num at h
    exact h
  rw [ht113]
  set d := (1 : ℚ) - 2 / (((5 : ℕ) : ℚ) + 1) with hdd
  rw [ewmNumF_append_zero, ewmDenF_append_zero]
  set N := ewmNumF d 0 (raw.take 112) with hN
  set D := ewmDenF d 0 (raw.take 112) with hD
  have hprev : 0 ≤ ewmNumF d 0 (raw.take 111) :=
    ewmNumF_nonneg d hd _ _ le_rfl (fun x hx => hnn x (List.take_subset _ _ hx))
  have hNpos : 0 < N := by
    rw [hN, ht112, ewmNumF_append]
    have hmul : 0 ≤ d * ewmNumF d 0 (raw.take 111) := mul_nonneg hd hprev
    exact add_pos_of_pos_of_nonneg (by norm_num) hmul
  have hD1 : 1 ≤ D := by
    rw [hD]
    apply ewmDenF_ge_one d hd _ _ le_rfl
    apply List.ne_nil_of_length_pos
    rw [List.length_take]
    omega
  have hD0 : (0 : ℚ) < D := by linarith
  have hDb : (0 : ℚ) < 1 + d * D := by nlinarith
  have hlt : d * N / (1 + d * D) < N / D := by
    rw [div_lt_div_iff₀ hDb hD0]
    have hexp : N * (1 + d * D) = N + d * N * D := by ring
    rw [hexp]
    linarith
  exact ne_of_lt hlt

/-- Witness for the amended C8 at the concrete frame `c8Data`: the raw
probability at position 115 of the skipped block `[112, 122)` is 0, and
the smoothed series does not increase across positions 112 → 113 of the
skipped block. -/
theorem retrain_skip_block_amended_witness :
    (fit_predict_raw c8Proba c8Data 101 1 10).getD 115 0 = 0
    ∧ (ewmMean 5 (fit_predict_raw c8Proba c8Data 101 1 10)).getD 113 0 ≤
        (ewmMean 5 (fit_predict_raw c8Proba c8Data 101 1 10)).getD 112 0 := by
  have H := retrain_skip_block_amended c8Proba c8Data 101 1 10 112
    (by decide) (by decide)
  refine ⟨H.2.1 115 (by norm_num) (by norm_num), ?_⟩
  exact (H.2.2.2 c8_raw_nonneg 112 le_rfl (by norm_num) (by decide)).1

/-! ### Simulator trade-list invariant (C3, C10) -/

/-- The record produced by `tradeExec` when the target equals the held
position. -/
lemma tradeExec_eq_same (cfg : SimConfig) (D : ℤ) (nav : ℚ) (ro : Bool)
    (target : Pos) (er : String) (s : SimState) (htp : target = s.pos) :
    tradeExec cfg D nav ro target er s =
      { navs := s.navs ++ [nav], nav := nav, pos := s.pos,
        entry_date := s.entry_date, entry_val := s.entry_val,
        risk_off := ro, trades := s.trades } := by
  unfold tradeExec
  rw [if_pos htp]

/-- The record produced by `tradeExec` on a position change. -/
lemma tradeExec_eq_change (cfg : SimConfig) (D : ℤ) (nav : ℚ) (ro : Bool)
    (target : Pos) (er : String) (s : SimState) (htp : ¬ target = s.pos) :
    tradeExec cfg D nav ro target er s =
      { navs := s.navs ++ [nav * (1 - cfg.commission *
          (if s.pos ≠ Pos.cash ∧ target ≠ Pos.cash then 2 else 1))],
        nav := nav * (1 - cfg.commission *
          (if s.pos ≠ Pos.cash ∧ target ≠ Pos.cash then 2 else 1)),
        pos := target,
        entry_date := if target ≠ Pos.cash then some D else s.entry_date,
        entry_val := if target ≠ Pos.cash then
            nav * (1 - cfg.commission *
              (if s.pos ≠ Pos.cash ∧ target ≠ Pos.cash then 2 else 1))
          else s.entry_val,
        risk_off := ro,
        trades := if s.pos ≠ Pos.cash ∧ s.entry_date ≠ none then
            s.trades ++ [{ asset := s.pos,
                           entry_date := s.entry_date.getD 0,
                           exit_date := D,
                           entry_value := s.entry_val,
                           exit_value := nav,
                           return_pct := nav / s.entry_val - 1,
                           holding_days := D - s.entry_date.getD 0,
                           exit_reason := if er = "" then "信号切换" else er }]
          else s.trades } := by
  unfold tradeExec
  rw [if_neg htp]

lemma tradeExec_invD (cfg : SimConfig) (Dprev D : ℤ) (hD : Dprev < D)
    (nav : ℚ) (ro : Bool) (target : Pos) (er : String) (s : SimState)
    (hs : SimInvD Dprev s) :
    SimInvD D (tradeExec cfg D nav ro target er s) := by
  obtain ⟨hchain, hio, hexit, hopen⟩ := hs
  by_cases htp : target = s.pos
  · rw [tradeExec_eq_same cfg D nav ro target er s htp]
    dsimp only [SimInvD]
    refine ⟨hchain, hio,
      fun tr htr => le_trans (hexit tr htr) (le_of_lt hD), ?_⟩
    intro hpos
    obtain ⟨e, he, heD, hee, hen⟩ := hopen hpos
    exact ⟨e, he, le_trans heD (le_of_lt hD), hee, hen⟩
  · rw [tradeExec_eq_change cfg D nav ro target er s htp]
    dsimp only [SimInvD]
    by_cases hg : s.pos ≠ Pos.cash ∧ s.entry_date ≠ none
    · obtain ⟨e, he, heD, hee, hen⟩ := hopen hg.1
      have hgetD : s.entry_date.getD 0 = e := by rw [he]; rfl
      rw [if_pos hg]
      refine ⟨?_, ?_, ?_, ?_⟩
      · rw [List.chain'_append]
        refine ⟨hchain, List.chain'_singleton _, ?_⟩
        intro x hx y hy
        simp only [List.head?_cons, Option.mem_def, Option.some.injEq] at hy
        subst hy
        have hxmem : x ∈ s.trades := List.mem_of_mem_getLast? hx
        show x.exit_date ≤ s.entry_date.getD 0
        rw [hgetD]
        exact hee x hxmem
      · intro tr htr
        rcases List.mem_append.mp htr with hold | hnew
        · exact hio tr hold
        · have htr' : tr = _ := List.mem_singleton.mp hnew
          subst htr'
          show s.entry_date.getD 0 < D
          rw [hgetD]
          exact lt_of_le_of_lt heD hD
      · intro tr htr
        rcases List.mem_append.mp htr with hold | hnew
        · exact le_trans (hexit tr hold) (le_of_lt hD)
        · have htr' : tr = _ := List.mem_singleton.mp hnew
          subst htr'
          exact le_refl D
      · intro hpos
        have htc : target ≠ Pos.cash := hpos
        refine ⟨D, by rw [if_pos htc], le_refl D, ?_, ?_⟩
        · intro tr htr
          rcases List.mem_append.mp htr with hold | hnew
          · exact le_trans (hexit tr hold) (le_of_lt hD)
          · have htr' : tr = _ := List.mem_singleton.mp hnew
            subst htr'
            exact le_refl D
        · intro tr htr
          rcases List.mem_append.mp htr with hold | hnew
          · exact lt_trans (lt_of_lt_of_le (hio tr hold) (hexit tr hold)) hD
          · have htr' : tr = _ := List.mem_singleton.mp hnew
            subst htr'
            show s.entry_date.getD 0 < D
            rw [hgetD]
            exact lt_of_le_of_lt heD hD
    · have hpc : s.pos = Pos.cash := by
        by_contra hpc
        obtain ⟨e, he, _⟩ := hopen hpc
        exact hg ⟨hpc, by rw [he]; simp⟩
      rw [if_neg hg]
      refine ⟨hchain, hio,
        fun tr htr => le_trans (hexit tr htr) (le_of_lt hD), ?_⟩
      intro hpos
      have htc : target ≠ Pos.cash := hpos
      refine ⟨D, by rw [if_pos htc], le_refl D,
        fun tr htr => le_trans (hexit tr htr) (le_of_lt hD),
        fun tr htr =>
          lt_trans (lt_of_lt_of_le (hio tr htr) (hexit tr htr)) hD⟩

lemma simDay_eq_tradeExec (cfg : SimConfig) (mom maw : ℕ)
    (data : List DayRow) (probs : Option (ℤ → Option ℚ)) (s : SimState)
    (i : ℕ) :
    ∃ nav ro tgt er, simDay cfg mom maw data probs s i =
      tradeExec cfg (dateAt data i) nav ro tgt er s :=
  ⟨_, _, _, _, rfl⟩

lemma simDay_invD (cfg : SimConfig) (mom maw : ℕ) (data : List DayRow)
    (probs : Option (ℤ → Option ℚ)) (hm : DatesMono data) (i : ℕ)
    (s : SimState) (h1 : 1 ≤ i) (hin : i < data.length)
    (hs : SimInvD (dateAt data (i - 1)) s) :
    SimInvD (dateAt data i) (simDay cfg mom maw data probs s i) := by
  obtain ⟨nav, ro, tgt, er, heq⟩ := simDay_eq_tradeExec cfg mom maw data probs s i
  rw [heq]
  exact tradeExec_invD cfg _ _ (hm (i - 1) i (by omega) hin) nav ro tgt er s hs

lemma runSim_invD_aux (cfg : SimConfig) (mom maw : ℕ) (data : List DayRow)
    (probs : Option (ℤ → Option ℚ)) (hm : DatesMono data) :
    ∀ (k i : ℕ) (s : SimState), 1 ≤ i → i + k ≤ data.length →
      SimInvD (dateAt data (i - 1)) s →
      SimInvD (dateAt data (i + k - 1))
        ((List.range' i k).foldl (simDay cfg mom maw data probs) s) := by
  intro k
  induction k with
  | zero => intro i s h1 h2 hs; simpa using hs
  | succ m ih =>
    intro i s h1 h2 hs
    rw [List.range'_succ]
    simp only [List.foldl_cons]
    have hstep := simDay_invD cfg mom maw data probs hm i s h1 (by omega) hs
    have hrec := ih (i + 1) (simDay cfg mom maw data probs s i)
      (by omega) (by omega) (by simpa using hstep)
    have hidx : i + 1 + m - 1 = i + (m + 1) - 1 := by omega
    rw [hidx] at hrec
    exact hrec

lemma initSimState_invD (D : ℤ) : SimInvD D initSimState := by
  refine ⟨List.chain'_nil, ?_, ?_, ?_⟩
  · intro tr htr
    exact absurd htr (List.not_mem_nil tr)
  · intro tr htr
    exact absurd htr (List.not_mem_nil tr)
  · intro h
    exact absurd rfl h

lemma runSim_invD (cfg : SimConfig) (mom maw : ℕ) (data : List DayRow)
    (probs : Option (ℤ → Option ℚ)) (hm : DatesMono data) :
    SimInvD (dateAt data (data.length - 1)) (runSim cfg mom maw data probs) := by
  unfold runSim
  rcases Nat.eq_zero_or_pos (data.length - warmupOf mom maw) with h0 | hpos
  · rw [h0]
    exact initSimState_invD _
  · have hw1 : 1 ≤ warmupOf mom maw := by unfold warmupOf; omega
    have h := runSim_invD_aux cfg mom maw data probs hm
      (data.length - warmupOf mom maw) (warmupOf mom maw) initSimState
      hw1 (by omega) (initSimState_invD _)
    have hidx : warmupOf mom maw + (data.length - warmupOf mom maw) - 1 =
        data.length - 1 := by omega
    rw [hidx] at h
    exact h

/-- C3: for every backtest run over a calendar with strictly increasing
dates, the trade list of `BacktestEngine.run_backtest` is chronologically
ordered and non-overlapping — consecutive trades satisfy
`exit_date ≤ next entry_date` — and every trade satisfies
`entry_date < exit_date` (at most one position is held at any time). -/
theorem trades_chronological (cfg : SimConfig) (mom maw : ℕ)
    (data : List DayRow) (ml_probs : Option (ℤ → Option ℚ))
    (hm : DatesMono data) :
    List.Chain' (fun a b => a.exit_date ≤ b.entry_date)
      (run_backtest cfg mom maw data ml_probs).trades
    ∧ ∀ tr ∈ (run_backtest cfg mom maw data ml_probs).trades,
        tr.entry_date < tr.exit_date := by
  have h := runSim_invD cfg mom maw data ml_probs hm
  exact ⟨h.1, h.2.1⟩

/-- Witness for C3: the 5-day doubling data with `momentum_window = 1`,
`ma_window = 2`. -/
theorem trades_chronological_witness :
    List.Chain' (fun a b => a.exit_date ≤ b.entry_date)
      (run_backtest defaultSimConfig 1 2 c10Data none).trades
    ∧ ∀ tr ∈ (run_backtest defaultSimConfig 1 2 c10Data none).trades,
        tr.entry_date < tr.exit_date := by
  apply trades_chronological
  intro j k hjk hk
  simp only [c10Data, List.length_cons, List.length_nil] at hk
  interval_cases k <;> interval_cases j <;> decide

lemma tradeStats_split (trades : List Trade) :
    (tradeStats trades).1 + (tradeStats trades).2.1 = trades.length := by
  unfold tradeStats
  split_ifs with h
  · have hle := List.length_filter_le
      (fun t => decide (t.return_pct > 0)) trades
    dsimp only []
    omega
  · dsimp only []
    omega

/-- C10: a position still open on the final simulated date is never
recorded.  For every run: `total_trades` counts exactly the recorded
(closed) trades, `winning_trades + losing_trades = total_trades`, and if
the simulation ends still holding an asset, its entry date is strictly
later than every recorded trade's entry date — the final holding appears
nowhere in the trade list. -/
theorem open_position_unrecorded (cfg : SimConfig) (mom maw : ℕ)
    (data : List DayRow) (ml_probs : Option (ℤ → Option ℚ))
    (hm : DatesMono data) :
    (run_backtest cfg mom maw data ml_probs).total_trades =
      (run_backtest cfg mom maw data ml_probs).trades.length
    ∧ (run_backtest cfg mom maw data ml_probs).winning_trades +
        (run_backtest cfg mom maw data ml_probs).losing_trades =
        (run_backtest cfg mom maw data ml_probs).total_trades
    ∧ ((runSim cfg mom maw data ml_probs).pos ≠ Pos.cash →
        ∃ e, (runSim cfg mom maw data ml_probs).entry_date = some e ∧
          ∀ tr ∈ (run_backtest cfg mom maw data ml_probs).trades,
            tr.entry_date < e) := by
  refine ⟨rfl, tradeStats_split _, ?_⟩
  intro hpos
  obtain ⟨e, he, _, _, hen⟩ :=
    (runSim_invD cfg mom maw data ml_probs hm).2.2.2 hpos
  exact ⟨e, he, hen⟩

/-- Witness for C10: the 5-day doubling run ends holding asset A. -/
theorem open_position_unrecorded_witness :
    (run_backtest defaultSimConfig 1 2 c10Data none).total_trades =
      (run_backtest defaultSimConfig 1 2 c10Data none).trades.length
    ∧ (run_backtest defaultSimConfig 1 2 c10Data none).winning_trades +
        (run_backtest defaultSimConfig 1 2 c10Data none).losing_trades =
        (run_backtest defaultSimConfig 1 2 c10Data none).total_trades
    ∧ ((runSim defaultSimConfig 1 2 c10Data none).pos ≠ Pos.cash →
        ∃ e, (runSim defaultSimConfig 1 2 c10Data none).entry_date = some e ∧
          ∀ tr ∈ (run_backtest defaultSimConfig 1 2 c10Data none).trades,
            tr.entry_date < e) := by
  apply open_position_unrecorded
  intro j k hjk hk
  simp only [c10Data, List.length_cons, List.length_nil] at hk
  interval_cases k <;> interval_cases j <;> decide

/-! ### C4: shape and positivity of the equity curve -/

lemma tradeExec_navs_nav (cfg : SimConfig) (D : ℤ) (nav : ℚ) (ro : Bool)
    (tgt : Pos) (er : String) (s : SimState) :
    (tradeExec cfg D nav ro tgt er s).navs =
      s.navs ++ [(tradeExec cfg D nav ro tgt er s).nav] := by
  by_cases h : tgt = s.pos
  · rw [tradeExec_eq_same cfg D nav ro tgt er s h]
  · rw [tradeExec_eq_change cfg D nav ro tgt er s h]

lemma tradeExec_nav_pos (cfg : SimConfig) (D : ℤ) (nav : ℚ) (ro : Bool)
    (tgt : Pos) (er : String) (s : SimState) (_hc0 : 0 ≤ cfg.commission)
    (hc1 : cfg.commission < 1 / 2) (hnav : 0 < nav) :
    0 < (tradeExec cfg D nav ro tgt er s).nav := by
  by_cases h : tgt = s.pos
  · rw [tradeExec_eq_same cfg D nav ro tgt er s h]
    exact hnav
  · rw [tradeExec_eq_change cfg D nav ro tgt er s h]
    show 0 < nav * (1 - cfg.commission *
      (if s.pos ≠ Pos.cash ∧ tgt ≠ Pos.cash then 2 else 1))
    have hfac : (0 : ℚ) < 1 - cfg.commission *
        (if s.pos ≠ Pos.cash ∧ tgt ≠ Pos.cash then 2 else 1) := by
      split_ifs with h2
      · linarith
      · linarith
    exact mul_pos hnav hfac

lemma rowAt_mem_or (data : List DayRow) (i : ℕ) :
    rowAt data i ∈ data ∨ rowAt data i = defaultRow := by
  unfold rowAt
  rcases Nat.lt_or_ge i data.length with h | h
  · left
    rw [List.getD_eq_getElem _ _ h]
    exact List.getElem_mem h
  · right
    exact List.getD_eq_default _ _ h

lemma simDay_eq_tradeExec' (cfg : SimConfig) (mom maw : ℕ)
    (data : List DayRow) (probs : Option (ℤ → Option ℚ)) (s : SimState)
    (i : ℕ) :
    ∃ ro tgt er, simDay cfg mom maw data probs s i =
      tradeExec cfg (dateAt data i)
        (s.nav * (1 + (match s.pos with
          | Pos.p300 => (rowAt data i).b300.pct_chg / 100
          | Pos.p1000 => (rowAt data i).b1000.pct_chg / 100
          | Pos.cash => cfg.daily_rf))) ro tgt er s :=
  ⟨_, _, _, rfl⟩

lemma simDay_nav_pos (cfg : SimConfig) (mom maw : ℕ) (data : List DayRow)
    (probs : Option (ℤ → Option ℚ))
    (hdata : ∀ r ∈ data, -100 < r.b300.pct_chg ∧ -100 < r.b1000.pct_chg)
    (hrf : -1 < cfg.daily_rf) (hc0 : 0 ≤ cfg.commission)
    (hc1 : cfg.commission < 1 / 2) (s : SimState) (i : ℕ)
    (hnav : 0 < s.nav) :
    0 < (simDay cfg mom maw data probs s i).nav := by
  obtain ⟨ro, tgt, er, heq⟩ := simDay_eq_tradeExec' cfg mom maw data probs s i
  rw [heq]
  apply tradeExec_nav_pos cfg _ _ ro tgt er s hc0 hc1
  have hret : -1 < (match s.pos with
      | Pos.p300 => (rowAt data i).b300.pct_chg / 100
      | Pos.p1000 => (rowAt data i).b1000.pct_chg / 100
      | Pos.cash => cfg.daily_rf) := by
    have hrow := rowAt_mem_or data i
    cases s.pos with
    | p300 =>
      show -1 < (rowAt data i).b300.pct_chg / 100
      rcases hrow with hmem | hdef
      · have := (hdata _ hmem).1
        linarith
      · rw [hdef]
        norm_num [defaultRow, defaultBar]
    | p1000 =>
      show -1 < (rowAt data i).b1000.pct_chg / 100
      rcases hrow with hmem | hdef
      · have := (hdata _ hmem).2
        linarith
      · rw [hdef]
        norm_num [defaultRow, defaultBar]
    | cash => exact hrf
  have h1 : (0 : ℚ) < 1 + (match s.pos with
      | Pos.p300 => (rowAt data i).b300.pct_chg / 100
      | Pos.p1000 => (rowAt data i).b1000.pct_chg / 100
      | Pos.cash => cfg.daily_rf) := by linarith
  exact mul_pos hnav h1

lemma runSim_navs_shape (cfg : SimConfig) (mom maw : ℕ)
    (data : List DayRow) (probs : Option (ℤ → Option ℚ)) :
    ∀ (k i : ℕ) (s : SimState),
      ∃ l, ((List.range' i k).foldl (simDay cfg mom maw data probs) s).navs =
        s.navs ++ l ∧ l.length = k := by
  intro k
  induction k with
  | zero => intro i s; exact ⟨[], by simp⟩
  | succ m ih =>
    intro i s
    rw [List.range'_succ]
    simp only [List.foldl_cons]
    obtain ⟨l, hl, hlen⟩ := ih (i + 1) (simDay cfg mom maw data probs s i)
    obtain ⟨ro, tgt, er, heq⟩ := simDay_eq_tradeExec' cfg mom maw data probs s i
    refine ⟨(simDay cfg mom maw data probs s i).nav :: l, ?_, by simp [hlen]⟩
    rw [hl, heq, tradeExec_navs_nav, ← heq]
    simp

lemma runSim_navs_pos (cfg : SimConfig) (mom maw : ℕ) (data : List DayRow)
    (probs : Option (ℤ → Option ℚ))
    (hdata : ∀ r ∈ data, -100 < r.b300.pct_chg ∧ -100 < r.b1000.pct_chg)
    (hrf : -1 < cfg.daily_rf) (hc0 : 0 ≤ cfg.commission)
    (hc1 : cfg.commission < 1 / 2) :
    ∀ (k i : ℕ) (s : SimState), 0 < s.nav → (∀ x ∈ s.navs, 0 < x) →
      0 < ((List.range' i k).foldl (simDay cfg mom maw data probs) s).nav
      ∧ ∀ x ∈ ((List.range' i k).foldl (simDay cfg mom maw data probs) s).navs,
          0 < x := by
  intro k
  induction k with
  | zero => intro i s h1 h2; exact ⟨h1, h2⟩
  | succ m ih =>
    intro i s h1 h2
    rw [List.range'_succ]
    simp only [List.foldl_cons]
    have hstep : 0 < (simDay cfg mom maw data probs s i).nav :=
      simDay_nav_pos cfg mom maw data probs hdata hrf hc0 hc1 s i h1
    have hnavs : ∀ x ∈ (simDay cfg mom maw data probs s i).navs, 0 < x := by
      obtain ⟨ro, tgt, er, heq⟩ := simDay_eq_tradeExec' cfg mom maw data probs s i
      rw [heq, tradeExec_navs_nav, ← heq]
      intro x hx
      rcases List.mem_append.mp hx with hold | hnew
      · exact h2 x hold
      · rw [List.mem_singleton.mp hnew]
        exact hstep
    exact ih (i + 1) (simDay cfg mom maw data probs s i) hstep hnavs

lemma equity_curve_length (cfg : SimConfig) (mom maw : ℕ)
    (data : List DayRow) (probs : Option (ℤ → Option ℚ)) :
    (run_backtest cfg mom maw data probs).equity_curve.length = data.length := by
  have hshape := runSim_navs_shape cfg mom maw data probs
    (data.length - warmupOf mom maw) (warmupOf mom maw) initSimState
  obtain ⟨l, hl, hlen⟩ := hshape
  have heq : (run_backtest cfg mom maw data probs).equity_curve =
      List.replicate (min (warmupOf mom maw) data.length) (1 : ℚ) ++
        (runSim cfg mom maw data probs).navs := rfl
  rw [heq]
  have hnavs : (runSim cfg mom maw data probs).navs = l := by
    have : (runSim cfg mom maw data probs).navs = initSimState.navs ++ l := hl
    simpa [initSimState] using this
  rw [hnavs]
  simp only [List.length_append, List.length_replicate, hlen]
  omega

lemma tradeExec_nav_of_cash (cfg : SimConfig) (D : ℤ) (nav : ℚ) (ro : Bool)
    (tgt : Pos) (er : String) (s : SimState) (hpc : s.pos = Pos.cash) :
    (tradeExec cfg D nav ro tgt er s).nav = nav ∨
    (tradeExec cfg D nav ro tgt er s).nav = nav * (1 - cfg.commission) := by
  by_cases h : tgt = s.pos
  · left
    rw [tradeExec_eq_same cfg D nav ro tgt er s h]
  · right
    rw [tradeExec_eq_change cfg D nav ro tgt er s h]
    show nav * (1 - cfg.commission *
      (if s.pos ≠ Pos.cash ∧ tgt ≠ Pos.cash then 2 else 1)) =
        nav * (1 - cfg.commission)
    rw [if_neg (by rw [hpc]; simp)]
    ring

lemma equity_first_sim_day (cfg : SimConfig) (mom maw : ℕ)
    (data : List DayRow) (probs : Option (ℤ → Option ℚ))
    (hwn : warmupOf mom maw < data.length) :
    (run_backtest cfg mom maw data probs).equity_curve.getD
        (warmupOf mom maw) 0 = 1 + cfg.daily_rf
    ∨ (run_backtest cfg mom maw data probs).equity_curve.getD
        (warmupOf mom maw) 0 = (1 + cfg.daily_rf) * (1 - cfg.commission) := by
  set w := warmupOf mom maw with hw
  have hk : data.length - w = (data.length - w - 1) + 1 := by omega
  have hrs : runSim cfg mom maw data probs =
      (List.range' (w + 1) (data.length - w - 1)).foldl
        (simDay cfg mom maw data probs)
        (simDay cfg mom maw data probs initSimState w) := by
    unfold runSim
    rw [← hw, hk, List.range'_succ]
    rw [List.foldl_cons]
    simp
  obtain ⟨l, hl, hlen⟩ := runSim_navs_shape cfg mom maw data probs
    (data.length - w - 1) (w + 1)
    (simDay cfg mom maw data probs initSimState w)
  obtain ⟨ro, tgt, er, heq⟩ :=
    simDay_eq_tradeExec' cfg mom maw data probs initSimState w
  have hs1navs : (simDay cfg mom maw data probs initSimState w).navs =
      [(simDay cfg mom maw data probs initSimState w).nav] := by
    rw [heq, tradeExec_navs_nav, ← heq]
    rfl
  have hval : (run_backtest cfg mom maw data probs).equity_curve.getD w 0 =
      (simDay cfg mom maw data probs initSimState w).nav := by
    have heqc : (run_backtest cfg mom maw data probs).equity_curve =
        List.replicate (min w data.length) 1 ++
          (runSim cfg mom maw data probs).navs := rfl
    rw [heqc, hrs, hl, hs1navs]
    have hmin : min w data.length = w := by omega
    rw [hmin]
    rw [List.getD_append_right _ _ _ _ (by simp)]
    simp
  rw [hval, heq]
  have hc := tradeExec_nav_of_cash cfg (dateAt data w)
      (initSimState.nav * (1 + (match initSimState.pos with
        | Pos.p300 => (rowAt data w).b300.pct_chg / 100
        | Pos.p1000 => (rowAt data w).b1000.pct_chg / 100
        | Pos.cash => cfg.daily_rf))) ro tgt er initSimState rfl
  rcases hc with h | h
  · left
    rw [h]
    show (1 : ℚ) * (1 + cfg.daily_rf) = 1 + cfg.daily_rf
    rw [one_mul]
  · right
    rw [h]
    show (1 : ℚ) * (1 + cfg.daily_rf) * (1 - cfg.commission) =
      (1 + cfg.daily_rf) * (1 - cfg.commission)
    rw [one_mul]

/-- Counterexample to C4 at a concrete 4-day run with
`momentum_window = ma_window = 1` (warm-up 2): the returned equity curve
has one entry per trading date of the whole aligned calendar (4 entries,
not the 2 post-warm-up dates), and its value on the first post-warm-up
date is not 1.0 (the day's cash settlement at the daily risk-free rate is
already included). -/
theorem equity_curve_cex :
    (run_backtest defaultSimConfig 1 1 c7Data none).equity_curve.length = 4
    ∧ (4 : ℕ) ≠ c7Data.length - warmupOf 1 1
    ∧ (run_backtest defaultSimConfig 1 1 c7Data none).equity_curve.getD
        (warmupOf 1 1) 0 ≠ 1 := by
  refine ⟨?_, by decide, ?_⟩
  · rw [equity_curve_length]
    rfl
  · rcases equity_first_sim_day defaultSimConfig 1 1 c7Data none (by decide)
      with h | h <;> rw [h]
    · norm_num [defaultSimConfig, daily_rf, risk_free_rate]
    · norm_num [defaultSimConfig, daily_rf, risk_free_rate, commission_rate]

/-- C4 amended: the equity curve returned by `run_backtest` has exactly
one entry per trading date of the whole aligned calendar (warm-up dates
included, `len(equity_curve) == len(common_idx)`); the entries on
warm-up dates all equal 1.0 (the NAV basis is the last warm-up date, not
the first post-warm-up date); the first post-warm-up entry already
includes that day's cash settlement — it equals `1 + daily_rf`, times
`1 - commission` if a position is entered that day — and every entry is
strictly positive provided every `pct_chg` exceeds -100 and the
commission rate lies in `[0, 1/2)` with `daily_rf > -1`. -/
theorem equity_curve_amended (cfg : SimConfig) (mom maw : ℕ)
    (data : List DayRow) (ml_probs : Option (ℤ → Option ℚ))
    (hdata : ∀ r ∈ data, -100 < r.b300.pct_chg ∧ -100 < r.b1000.pct_chg)
    (hrf : -1 < cfg.daily_rf) (hc0 : 0 ≤ cfg.commission)
    (hc1 : cfg.commission < 1 / 2) :
    (run_backtest cfg mom maw data ml_probs).equity_curve.length = data.length
    ∧ (∀ j, j < warmupOf mom maw → j < data.length →
        (run_backtest cfg mom maw data ml_probs).equity_curve.getD j 0 = 1)
    ∧ (∀ x ∈ (run_backtest cfg mom maw data ml_probs).equity_curve, 0 < x)
    ∧ (warmupOf mom maw < data.length →
        ((run_backtest cfg mom maw data ml_probs).equity_curve.getD
            (warmupOf mom maw) 0 = 1 + cfg.daily_rf
         ∨ (run_backtest cfg mom maw data ml_probs).equity_curve.getD
            (warmupOf mom maw) 0 = (1 + cfg.daily_rf) * (1 - cfg.commission))) := by
  have heqc : (run_backtest cfg mom maw data ml_probs).equity_curve =
      List.replicate (min (warmupOf mom maw) data.length) (1 : ℚ) ++
        (runSim cfg mom maw data ml_probs).navs := rfl
  refine ⟨equity_curve_length cfg mom maw data ml_probs, ?_, ?_, ?_⟩
  · intro j hj1 hj2
    rw [heqc]
    rw [List.getD_append _ _ _ _ (by simp only [List.length_replicate]; omega)]
    have hjr : j < (List.replicate (min (warmupOf mom maw) data.length)
        (1 : ℚ)).length := by simp; omega
    rw [List.getD_eq_getElem _ _ hjr]
    simp
  · intro x hx
    rw [heqc] at hx
    rcases List.mem_append.mp hx with hrep | hnav
    · rw [List.eq_of_mem_replicate hrep]
      norm_num
    · have hpos := (runSim_navs_pos cfg mom maw data ml_probs hdata hrf hc0 hc1
        (data.length - warmupOf mom maw) (warmupOf mom maw) initSimState
        (by norm_num [initSimState]) (by simp [initSimState])).2
      exact hpos x hnav
  · exact equity_first_sim_day cfg mom maw data ml_probs

/-- Witness for the amended C4 at the 4-day constant-price data. -/
theorem equity_curve_amended_witness :
    (run_backtest defaultSimConfig 1 1 c7Data none).equity_curve.length =
      c7Data.length
    ∧ (∀ j, j < warmupOf 1 1 → j < c7Data.length →
        (run_backtest defaultSimConfig 1 1 c7Data none).equity_curve.getD j 0 = 1)
    ∧ (∀ x ∈ (run_backtest defaultSimConfig 1 1 c7Data none).equity_curve, 0 < x)
    ∧ (warmupOf 1 1 < c7Data.length →
        ((run_backtest defaultSimConfig 1 1 c7Data none).equity_curve.getD
            (warmupOf 1 1) 0 = 1 + defaultSimConfig.daily_rf
         ∨ (run_backtest defaultSimConfig 1 1 c7Data none).equity_curve.getD
            (warmupOf 1 1) 0 =
            (1 + defaultSimConfig.daily_rf) * (1 - defaultSimConfig.commission))) :=
  equity_curve_amended defaultSimConfig 1 1 c7Data none
    (by decide)
    (by norm_num [defaultSimConfig, daily_rf, risk_free_rate])
    (by norm_num [defaultSimConfig, commission_rate])
    (by norm_num [defaultSimConfig, commission_rate])

/-! ### C7: dates missing from the risk-probability series -/

lemma mlGateStep_fst (trig rel : ℚ) (probs : Option (ℤ → Option ℚ)) (d : ℤ)
    (ro : Bool) (t1 t2 : Pos) :
    (mlGateStep trig rel probs d ro t1).1 =
      (mlGateStep trig rel probs d ro t2).1 := by
  unfold mlGateStep
  cases probs with
  | none => rfl
  | some p =>
    cases hpd : p d with
    | none => simp [hpd]
    | some q => simp [hpd]

lemma tradeExec_risk_off (cfg : SimConfig) (D : ℤ) (nav : ℚ) (ro : Bool)
    (tgt : Pos) (er : String) (s : SimState) :
    (tradeExec cfg D nav ro tgt er s).risk_off = ro := by
  by_cases h : tgt = s.pos
  · rw [tradeExec_eq_same cfg D nav ro tgt er s h]
  · rw [tradeExec_eq_change cfg D nav ro tgt er s h]

lemma simDay_eq_tradeExec_gate (cfg : SimConfig) (mom maw : ℕ)
    (data : List DayRow) (probs : Option (ℤ → Option ℚ)) (s : SimState)
    (i : ℕ) :
    ∃ nav tgt0, simDay cfg mom maw data probs s i =
      tradeExec cfg (dateAt data i) nav
        (mlGateStep cfg.ml_trigger cfg.ml_release probs (dateAt data i)
          s.risk_off tgt0).1
        (mlGateStep cfg.ml_trigger cfg.ml_release probs (dateAt data i)
          s.risk_off tgt0).2.1
        (mlGateStep cfg.ml_trigger cfg.ml_release probs (dateAt data i)
          s.risk_off tgt0).2.2 s :=
  ⟨_, _, rfl⟩

lemma simDay_risk_off (cfg : SimConfig) (mom maw : ℕ) (data : List DayRow)
    (probs : Option (ℤ → Option ℚ)) (s : SimState) (i : ℕ) :
    (simDay cfg mom maw data probs s i).risk_off =
      (mlGateStep cfg.ml_trigger cfg.ml_release probs (dateAt data i)
        s.risk_off Pos.cash).1 := by
  obtain ⟨nav, tgt0, heq⟩ :=
    simDay_eq_tradeExec_gate cfg mom maw data probs s i
  rw [heq, tradeExec_risk_off]
  exact mlGateStep_fst _ _ _ _ _ tgt0 Pos.cash

/-- Counterexample to C7 at a concrete 4-day run (`momentum_window =
ma_window = 1`, so days 2 and 3 are simulated): the probability series
trips the gate on date 12; date 13 is missing from series A and carries
probability 0 in series B.  If a missing date were treated as probability
0, both runs would finish with the gate released — but the run with the
missing date finishes still risk-off, because the gate block is skipped
entirely for dates not in the series. -/
theorem missing_prob_cex :
    c7ProbsA 13 = none
    ∧ c7ProbsB 13 = some 0
    ∧ (runSim defaultSimConfig 1 1 c7Data (some c7ProbsA)).risk_off = true
    ∧ (runSim defaultSimConfig 1 1 c7Data (some c7ProbsB)).risk_off = false := by
  have htrig : (runBacktestGate defaultSimConfig.ml_trigger
      defaultSimConfig.ml_release (9 / 10) false).1 = true := by
    unfold runBacktestGate
    rw [if_pos ⟨rfl, by norm_num [defaultSimConfig, risk_trigger_threshold]⟩]
  have hrel : (runBacktestGate defaultSimConfig.ml_trigger
      defaultSimConfig.ml_release 0 true).1 = false := by
    unfold runBacktestGate
    rw [if_neg (by simp),
      if_pos ⟨rfl, by norm_num [defaultSimConfig, risk_release_threshold]⟩]
  refine ⟨by decide, by decide, ?_, ?_⟩
  · show (simDay defaultSimConfig 1 1 c7Data (some c7ProbsA)
      (simDay defaultSimConfig 1 1 c7Data (some c7ProbsA) initSimState 2)
      3).risk_off = true
    rw [simDay_risk_off, simDay_risk_off]
    have h2 : (mlGateStep defaultSimConfig.ml_trigger
        defaultSimConfig.ml_release (some c7ProbsA) (dateAt c7Data 2)
        initSimState.risk_off Pos.cash).1 = true := by
      show (runBacktestGate defaultSimConfig.ml_trigger
        defaultSimConfig.ml_release (9 / 10) false).1 = true
      exact htrig
    rw [h2]
    rfl
  · show (simDay defaultSimConfig 1 1 c7Data (some c7ProbsB)
      (simDay defaultSimConfig 1 1 c7Data (some c7ProbsB) initSimState 2)
      3).risk_off = false
    rw [simDay_risk_off, simDay_risk_off]
    have h2 : (mlGateStep defaultSimConfig.ml_trigger
        defaultSimConfig.ml_release (some c7ProbsB) (dateAt c7Data 2)
        initSimState.risk_off Pos.cash).1 = true := by
      show (runBacktestGate defaultSimConfig.ml_trigger
        defaultSimConfig.ml_release (9 / 10) false).1 = true
      exact htrig
    rw [h2]
    show (runBacktestGate defaultSimConfig.ml_trigger
      defaultSimConfig.ml_release 0 true).1 = false
    exact hrel

/-- C7 amended: in `BacktestEngine.run_backtest`, a simulated date absent
from the supplied probability series skips the ML gate block entirely —
the hysteresis state is left unchanged and the target is not overridden
to CASH, even when currently risk-off (so a missing date is NOT
equivalent to probability 0, which would release the gate).  It is
`DMRMLStrategy.generate_signals` that substitutes probability 0 for a
missing date; feeding 0 to `get_risk_signal` with the configured
thresholds always yields a non-risk-off state. -/
theorem missing_prob_amended (trig rel : ℚ) (probs : ℤ → Option ℚ) (d : ℤ)
    (ro : Bool) (tgt : Pos) (h : probs d = none) :
    mlGateStep trig rel (some probs) d ro tgt = (ro, tgt, "")
    ∧ generate_signals_prob probs d = 0
    ∧ (get_risk_signal 0 ro none none).1 = false := by
  refine ⟨?_, ?_, ?_⟩
  · simp [mlGateStep, h]
  · simp [generate_signals_prob, h]
  · cases ro <;>
      norm_num [get_risk_signal, pyOrQ, risk_trigger_threshold,
        risk_release_threshold]

/-- Witness for the amended C7 at the concrete series `c7ProbsA` and the
missing date 13, starting risk-off with target `"300"`. -/
theorem missing_prob_amended_witness :
    mlGateStep (2 / 5) (33 / 100) (some c7ProbsA) 13 true Pos.p300 =
      (true, Pos.p300, "")
    ∧ generate_signals_prob c7ProbsA 13 = 0
    ∧ (get_risk_signal 0 true none none).1 = false :=
  missing_prob_amended (2 / 5) (33 / 100) c7ProbsA 13 true Pos.p300 (by decide)

/-! ### C9: grid search with no passing combination -/

lemma opt_fold_no_pass (cfg : SimConfig) (data : List DayRow)
    (metricOf : BacktestResult → ℚ) (maxdd : ℚ) :
    ∀ (l : List (ℕ × ℕ))
      (acc : (ℕ × ℕ) × ℚ × Option BacktestResult × List OptRow),
      (∀ mp ∈ l,
        ¬((run_backtest cfg mp.1 mp.2 data none).total_return > benchRet data
          ∧ (run_backtest cfg mp.1 mp.2 data none).max_drawdown > maxdd)) →
      (l.foldl (fun acc mp =>
        let result := run_backtest cfg mp.1 mp.2 data none
        let is_pass := decide (result.total_return > benchRet data
          ∧ result.max_drawdown > maxdd)
        let rows := acc.2.2.2 ++ [⟨mp.1, mp.2, result.total_return,
          result.max_drawdown, is_pass⟩]
        if is_pass = true ∧ metricOf result > acc.2.1 then
          ((mp.1, mp.2), metricOf result, some result, rows)
        else (acc.1, acc.2.1, acc.2.2.1, rows)) acc) =
      (acc.1, acc.2.1, acc.2.2.1, acc.2.2.2 ++ l.map (fun mp =>
        (⟨mp.1, mp.2, (run_backtest cfg mp.1 mp.2 data none).total_return,
          (run_backtest cfg mp.1 mp.2 data none).max_drawdown,
          false⟩ : OptRow))) := by
  intro l
  induction l with
  | nil => intro acc _; simp
  | cons mp l ih =>
    intro acc hfail
    have hmp := hfail mp (List.mem_cons_self mp l)
    have hpass : decide
        ((run_backtest cfg mp.1 mp.2 data none).total_return > benchRet data
          ∧ (run_backtest cfg mp.1 mp.2 data none).max_drawdown > maxdd) =
        false := decide_eq_false hmp
    simp only [List.foldl_cons]
    rw [hpass]
    rw [if_neg (by simp)]
    rw [ih _ (fun q hq => hfail q (List.mem_cons_of_mem _ hq))]
    simp [List.append_assoc]

lemma optGrid_ok (cfg : SimConfig) (data : List DayRow)
    (metricOf : BacktestResult → ℚ) (maxdd : ℚ) :
    ∀ (l : List (ℕ × ℕ))
      (acc : (ℕ × ℕ) × ℚ × Option BacktestResult × List OptRow),
      (∀ mp ∈ l, warmupOf mp.1 mp.2 < data.length) →
      optGrid cfg data metricOf maxdd l acc =
      Except.ok (l.foldl (fun acc mp =>
        let result := run_backtest cfg mp.1 mp.2 data none
        let is_pass := decide (result.total_return > benchRet data
          ∧ result.max_drawdown > maxdd)
        let rows := acc.2.2.2 ++ [⟨mp.1, mp.2, result.total_return,
          result.max_drawdown, is_pass⟩]
        if is_pass = true ∧ metricOf result > acc.2.1 then
          ((mp.1, mp.2), metricOf result, some result, rows)
        else (acc.1, acc.2.1, acc.2.2.1, rows)) acc) := by
  intro l
  induction l with
  | nil => intro acc _; rfl
  | cons mp rest ih =>
    intro acc hok
    have h1 : run_backtest_checked cfg mp.1 mp.2 data none =
        Except.ok (run_backtest cfg mp.1 mp.2 data none) := by
      unfold run_backtest_checked
      rw [if_pos (hok mp (List.mem_cons_self mp rest))]
    rw [List.foldl_cons]
    show (match run_backtest_checked cfg mp.1 mp.2 data none with
      | Except.error e => Except.error e
      | Except.ok result =>
        let is_pass := decide (result.total_return > benchRet data
          ∧ result.max_drawdown > maxdd)
        let rows := acc.2.2.2 ++ [(⟨mp.1, mp.2, result.total_return,
          result.max_drawdown, is_pass⟩ : OptRow)]
        optGrid cfg data metricOf maxdd rest
          (if is_pass = true ∧ metricOf result > acc.2.1 then
            ((mp.1, mp.2), metricOf result, some result, rows)
          else (acc.1, acc.2.1, acc.2.2.1, rows))) = _
    rw [h1]
    exact ih _ (fun q hq => hok q (List.mem_cons_of_mem _ hq))

lemma c9_simDay :
    simDay defaultSimConfig 30 30 c9Data none initSimState 31 =
      { navs := [1 * (1 + defaultSimConfig.daily_rf)],
        nav := 1 * (1 + defaultSimConfig.daily_rf), pos := Pos.cash,
        entry_date := none, entry_val := 0, risk_off := false,
        trades := [] } := by
  have hs3 : decide ((rowAt c9Data 31).b300.close >
        maWindowMean c9Data (fun r => r.b300.close) 31 30
      ∧ (rowAt c9Data 31).b300.close /
          (rowAt c9Data (31 - 30 - 1)).b300.close - 1 > 0) = false := by
    apply decide_eq_false
    rintro ⟨-, hmm⟩
    have h1 : (rowAt c9Data 31).b300.close = 70 := rfl
    have h2 : (rowAt c9Data (31 - 30 - 1)).b300.close = 70 := rfl
    rw [h1, h2] at hmm
    norm_num at hmm
  have hs10 : decide ((rowAt c9Data 31).b1000.close >
        maWindowMean c9Data (fun r => r.b1000.close) 31 30
      ∧ (rowAt c9Data 31).b1000.close /
          (rowAt c9Data (31 - 30 - 1)).b1000.close - 1 > 0) = false := by
    apply decide_eq_false
    rintro ⟨-, hmm⟩
    have h1 : (rowAt c9Data 31).b1000.close = 70 := rfl
    have h2 : (rowAt c9Data (31 - 30 - 1)).b1000.close = 70 := rfl
    rw [h1, h2] at hmm
    norm_num at hmm
  have hbt : ∀ m m10 : ℚ, backtestTarget false false m m10 = Pos.cash := by
    intro m m10
    rfl
  simp only [simDay, hs3, hs10, hbt]
  have hgate : mlGateStep defaultSimConfig.ml_trigger defaultSimConfig.ml_release
      none (rowAt c9Data 31).date initSimState.risk_off Pos.cash =
      (initSimState.risk_off, Pos.cash, "") := rfl
  rw [hgate]
  dsimp only [initSimState]
  rw [tradeExec_eq_same defaultSimConfig _ _ _ Pos.cash _ _ rfl]
  simp

lemma c9_total_return :
    (run_backtest defaultSimConfig 30 30 c9Data none).total_return =
      1 * (1 + defaultSimConfig.daily_rf) / 1 - 1 := by
  have hrs : runSim defaultSimConfig 30 30 c9Data none =
      simDay defaultSimConfig 30 30 c9Data none initSimState 31 := by
    unfold runSim warmupOf
    have hl : c9Data.length = 32 := rfl
    rw [hl]
    norm_num
  have heqc : (run_backtest defaultSimConfig 30 30 c9Data none).total_return =
      (List.replicate (min (warmupOf 30 30) c9Data.length) (1 : ℚ) ++
        (runSim defaultSimConfig 30 30 c9Data none).navs).getLastD 0 /
      (List.replicate (min (warmupOf 30 30) c9Data.length) (1 : ℚ) ++
        (runSim defaultSimConfig 30 30 c9Data none).navs).headD 0 - 1 := rfl
  rw [heqc, hrs, c9_simDay]
  have hmin : min (warmupOf 30 30) c9Data.length = 31 := rfl
  rw [hmin]
  have hlast : (List.replicate 31 (1 : ℚ) ++
      [1 * (1 + defaultSimConfig.daily_rf)]).getLastD 0 =
      1 * (1 + defaultSimConfig.daily_rf) := rfl
  have hhead : (List.replicate 31 (1 : ℚ) ++
      [1 * (1 + defaultSimConfig.daily_rf)]).headD 0 = 1 := rfl
  rw [hlast, hhead]

/-- C9: on an input the source completes on — an aligned calendar longer
than the static 30-row benchmark lookback, every grid cell's warm-up
below the calendar length (otherwise `run_backtest` raises `IndexError`,
which `optimize_parameters` propagates) — when no `(momentum, ma)`
combination in the grid satisfies the acceptance filter
`total_return > benchmark_return and max_drawdown > max_drawdown_limit`,
`BacktestEngine.optimize_parameters` returns normally with the hard-coded
default parameter pair `(20, 12)` and a `None` best result (neither the
best unfiltered combination nor an error), while the returned table still
lists every evaluated combination, in grid order, with `is_pass =
False`. -/
theorem optimize_no_pass_defaults (cfg : SimConfig) (data : List DayRow)
    (momR maR : List ℕ) (metricOf : BacktestResult → ℚ) (maxdd : ℚ)
    (hlen : 30 < data.length)
    (hwarm : ∀ m ∈ momR, ∀ a ∈ maR, warmupOf m a < data.length)
    (hfail : ∀ m ∈ momR, ∀ a ∈ maR,
      ¬((run_backtest cfg m a data none).total_return > benchRet data
        ∧ (run_backtest cfg m a data none).max_drawdown > maxdd)) :
    optimize_parameters cfg data momR maR metricOf maxdd =
      Except.ok ((20, 12), none,
        (momR.flatMap (fun m => maR.map (fun a => (m, a)))).map (fun mp =>
          (⟨mp.1, mp.2, (run_backtest cfg mp.1 mp.2 data none).total_return,
            (run_backtest cfg mp.1 mp.2 data none).max_drawdown,
            false⟩ : OptRow))) := by
  have hcw : ∀ mp ∈ momR.flatMap (fun m => maR.map (fun a => (m, a))),
      warmupOf mp.1 mp.2 < data.length := by
    intro mp hmp
    simp only [List.mem_flatMap, List.mem_map] at hmp
    obtain ⟨m, hm, a, ha, rfl⟩ := hmp
    exact hwarm m hm a ha
  have hcells : ∀ mp ∈ momR.flatMap (fun m => maR.map (fun a => (m, a))),
      ¬((run_backtest cfg mp.1 mp.2 data none).total_return > benchRet data
        ∧ (run_backtest cfg mp.1 mp.2 data none).max_drawdown > maxdd) := by
    intro mp hmp
    simp only [List.mem_flatMap, List.mem_map] at hmp
    obtain ⟨m, hm, a, ha, rfl⟩ := hmp
    exact hfail m hm a ha
  unfold optimize_parameters
  rw [if_neg (by omega)]
  rw [optGrid_ok cfg data metricOf maxdd _ _ hcw]
  rw [opt_fold_no_pass cfg data metricOf maxdd _ _ hcells]
  simp only [Except.map, List.nil_append]

/-- Witness for C9 at the 32-row data `c9Data` with the singleton grid
`{(30, 30)}`: the source completes (32 > 30 rows, warm-up 31 < 32), the
single combination fails the filter (one day of cash interest does not
beat the benchmark return of 9), so `Except.ok` of the defaults `(20, 12)`
and `None` comes back with the single table row marked not passed. -/
theorem optimize_no_pass_defaults_witness :
    optimize_parameters defaultSimConfig c9Data [30] [30]
        (fun r => r.total_return) max_drawdown_limit =
      Except.ok ((20, 12), none,
        (([30] : List ℕ).flatMap (fun m =>
            ([30] : List ℕ).map (fun a => (m, a)))).map (fun mp =>
          (⟨mp.1, mp.2,
            (run_backtest defaultSimConfig mp.1 mp.2 c9Data none).total_return,
            (run_backtest defaultSimConfig mp.1 mp.2 c9Data none).max_drawdown,
            false⟩ : OptRow))) := by
  apply optimize_no_pass_defaults
  · show (30 : ℕ) < c9Data.length
    decide
  · intro m hm a ha
    simp only [List.mem_singleton] at hm ha
    subst hm
    subst ha
    decide
  · intro m hm a ha
    simp only [List.mem_singleton] at hm ha
    subst hm
    subst ha
    rintro ⟨h1, -⟩
    have hb : benchRet c9Data = 70 / 7 - 1 := rfl
    rw [c9_total_return, hb] at h1
    norm_num [defaultSimConfig, daily_rf, risk_free_rate] at h1

end DMRML
